import Mathlib

/-!
# Verification of the `inochi` particle-simulation core

A shallow embedding, in Lean 4, of the force-evaluation and spatial-acceleration
subsystem of the `inochi` repository, together with theorems settling the frozen
claims C1–C10 about it.

Embedding conventions:
* The spatial-index subsystem (`src/spatial.rs`) is embedded over `ℚ`, so that
  every definition is computable and concrete scenarios can be settled by `decide`.
  The single square-root comparison in the source (`position.distance(p) <= radius`
  in `SpatialGrid::query_neighbors`) is encoded in the exactly equivalent
  square-free form `0 ≤ radius ∧ dist² ≤ radius²` (for every real radius,
  `√s ≤ radius ↔ 0 ≤ radius ∧ s ≤ radius²` when `s ≥ 0`).
* The force/integration subsystem (`src/forces.rs`, `src/particle.rs`) is embedded
  over `ℝ`, since its force laws genuinely divide by Euclidean lengths.
  `f32` arithmetic is idealised as exact arithmetic in both cases.
* `rand::random::<f32>()` is modelled by an explicit stream of samples threaded
  through the computation (`RandState`): the source draws from a global RNG, the
  embedding reads successive values of an arbitrary oracle `ℕ → ℝ`.
-/

/-! ## Spatial subsystem (`src/spatial.rs`), over `ℚ` -/

/-- A 2-d vector with rational coordinates (the spatial subsystem's `glam::Vec2`). -/
structure Vec2Q where
  x : ℚ
  y : ℚ
deriving DecidableEq, Repr

instance : Inhabited Vec2Q := ⟨⟨0, 0⟩⟩

namespace Vec2Q

def sub (a b : Vec2Q) : Vec2Q := ⟨a.x - b.x, a.y - b.y⟩

def add (a b : Vec2Q) : Vec2Q := ⟨a.x + b.x, a.y + b.y⟩

/-- `Vec2::splat(r)`. -/
def splat (r : ℚ) : Vec2Q := ⟨r, r⟩

/-- Squared Euclidean distance.  The source's `a.distance(b)` is `√(distSq a b)`;
comparisons against it are encoded square-free (see the module comment). -/
def distSq (a b : Vec2Q) : ℚ :=
  (a.x - b.x) * (a.x - b.x) + (a.y - b.y) * (a.y - b.y)

end Vec2Q

/-- The inclusive integer range `a..=b` of a Rust `for` loop, in iteration order. -/
def intRangeIncl (a b : ℤ) : List ℤ :=
  (List.range (b + 1 - a).toNat).map (fun k => a + (k : ℤ))

/-- Lookup in an association list modelling `HashMap<(i32,i32), Vec<usize>>`
(`self.grid.get(&cell)`). -/
def gridFind (g : List ((ℤ × ℤ) × List ℕ)) (c : ℤ × ℤ) : Option (List ℕ) :=
  match g with
  | [] => none
  | (k, v) :: rest => if k = c then some v else gridFind rest c

/-- `self.grid.entry(cell).or_insert_with(Vec::new).push(index)`: append `i` to the
cell's bucket, creating the bucket if absent. -/
def gridUpsert (g : List ((ℤ × ℤ) × List ℕ)) (c : ℤ × ℤ) (i : ℕ) :
    List ((ℤ × ℤ) × List ℕ) :=
  match g with
  | [] => [(c, [i])]
  | (k, v) :: rest =>
      if k = c then (k, v ++ [i]) :: rest else (k, v) :: gridUpsert rest c i

/-- `SpatialGrid` (spatial.rs:5–11).  `grid` is the cell map, `particle_positions`
the positions captured at the last rebuild. -/
structure SpatialGrid where
  cell_size : ℚ
  bounds : Vec2Q × Vec2Q
  grid : List ((ℤ × ℤ) × List ℕ)
  particle_positions : List Vec2Q
deriving Repr

namespace SpatialGrid

/-- `SpatialGrid::new` (spatial.rs:14–21). -/
def new (cell_size : ℚ) (bounds : Vec2Q × Vec2Q) : SpatialGrid :=
  { cell_size := cell_size, bounds := bounds, grid := [], particle_positions := [] }

/-- `SpatialGrid::position_to_cell` (spatial.rs:67–71). -/
def position_to_cell (g : SpatialGrid) (position : Vec2Q) : ℤ × ℤ :=
  (⌊(position.x - g.bounds.1.x) / g.cell_size⌋, ⌊(position.y - g.bounds.1.y) / g.cell_size⌋)

/-- `SpatialGrid::update` (spatial.rs:23–33).  The source takes `&[Particle]` and
reads only each particle's `position`; the embedding takes the positions. -/
def update (g : SpatialGrid) (positions : List Vec2Q) : SpatialGrid :=
  { g with
    grid := positions.enum.foldl
      (fun acc ip => gridUpsert acc (g.position_to_cell ip.2) ip.1) [],
    particle_positions := positions }

/-- `SpatialGrid::query_neighbors` (spatial.rs:35–56).  The distance filter
`position.distance(*particle_pos) <= radius` is encoded square-free. -/
def query_neighbors (g : SpatialGrid) (position : Vec2Q) (radius : ℚ) : List ℕ :=
  let min_cell := g.position_to_cell (position.sub (Vec2Q.splat radius))
  let max_cell := g.position_to_cell (position.add (Vec2Q.splat radius))
  (intRangeIncl min_cell.1 max_cell.1).foldl (fun acc x =>
    (intRangeIncl min_cell.2 max_cell.2).foldl (fun acc y =>
      match gridFind g.grid (x, y) with
      | none => acc
      | some indices => indices.foldl (fun acc index =>
          match g.particle_positions.get? index with
          | none => acc
          | some particle_pos =>
              if 0 ≤ radius ∧ Vec2Q.distSq position particle_pos ≤ radius * radius then
                acc ++ [index]
              else acc) acc) acc) []

end SpatialGrid

/-- `QuadTree` (spatial.rs:82–90): bounds, stored particle indices, optional four
children (top-left, top-right, bottom-left, bottom-right), `max_particles`,
`max_depth`, `depth`. -/
inductive QuadTree : Type where
  | mk : Vec2Q → Vec2Q → List ℕ → Option (QuadTree × QuadTree × QuadTree × QuadTree) →
      ℕ → ℕ → ℕ → QuadTree
deriving Repr

namespace QuadTree

def boundsMin : QuadTree → Vec2Q | .mk a _ _ _ _ _ _ => a
def boundsMax : QuadTree → Vec2Q | .mk _ a _ _ _ _ _ => a
def particles : QuadTree → List ℕ | .mk _ _ a _ _ _ _ => a
def children : QuadTree → Option (QuadTree × QuadTree × QuadTree × QuadTree)
  | .mk _ _ _ a _ _ _ => a
def max_particles : QuadTree → ℕ | .mk _ _ _ _ a _ _ => a
def max_depth : QuadTree → ℕ | .mk _ _ _ _ _ a _ => a
def depth : QuadTree → ℕ | .mk _ _ _ _ _ _ a => a

/-- `QuadTree::new` (spatial.rs:93–102). -/
def new (bounds : Vec2Q × Vec2Q) (max_particles max_depth : ℕ) : QuadTree :=
  .mk bounds.1 bounds.2 [] none max_particles max_depth 0

/-- `QuadTree::clear` (spatial.rs:115–118): drop the stored indices and children,
keeping bounds and parameters. -/
def clear : QuadTree → QuadTree
  | .mk bmin bmax _ _ mp md d => .mk bmin bmax [] none mp md d

/-- `QuadTree::contains_point` (spatial.rs:241–244). -/
def contains_point (t : QuadTree) (point : Vec2Q) : Prop :=
  t.boundsMin.x ≤ point.x ∧ point.x ≤ t.boundsMax.x ∧
  t.boundsMin.y ≤ point.y ∧ point.y ≤ t.boundsMax.y

instance (t : QuadTree) (p : Vec2Q) : Decidable (t.contains_point p) := by
  unfold contains_point; infer_instance

/-- `QuadTree::subdivide` (spatial.rs:199–239): create the four quadrant children
at depth `depth + 1`; the node keeps its own stored particles. -/
def subdivide : QuadTree → QuadTree
  | .mk bmin bmax parts _ mp md d =>
      let center : Vec2Q := ⟨(bmin.x + bmax.x) * (1/2), (bmin.y + bmax.y) * (1/2)⟩
      .mk bmin bmax parts (some
        ( .mk bmin center [] none mp md (d + 1),
          .mk ⟨center.x, bmin.y⟩ ⟨bmax.x, center.y⟩ [] none mp md (d + 1),
          .mk ⟨bmin.x, center.y⟩ ⟨center.x, bmax.y⟩ [] none mp md (d + 1),
          .mk center bmax [] none mp md (d + 1) )) mp md d

/-- Push an index into the node's own list (`self.particles.push(particle_index)`). -/
def pushIdx : QuadTree → ℕ → QuadTree
  | .mk bmin bmax parts ch mp md d, i => .mk bmin bmax (parts ++ [i]) ch mp md d

/-- `QuadTree::insert` (spatial.rs:120–145).  The Rust recursion terminates because
each subdivision level increases `depth` toward `max_depth`; the embedding makes
that measure explicit as a `fuel` argument.  When fuel runs out the node stores the
index itself — the same defensive fallback the source uses when no child accepts
the point — so every theorem below holds for every fuel value, and
`QuadTreeManager.update` supplies enough fuel for the source behaviour. -/
def insert (fuel : ℕ) (t : QuadTree) (particle_index : ℕ) (position : Vec2Q) :
    QuadTree × Bool :=
  if ¬ t.contains_point position then (t, false)
  else if t.particles.length < t.max_particles ∨ t.max_depth ≤ t.depth then
    (t.pushIdx particle_index, true)
  else
    match fuel with
    | 0 => (t.pushIdx particle_index, true)
    | fuel + 1 =>
      let t' := match t.children with | none => t.subdivide | some _ => t
      match t'.children with
      | none => (t'.pushIdx particle_index, true)
      | some (c0, c1, c2, c3) =>
        -- `for child in children.iter_mut() { if child.insert(..) { return true } }`:
        -- take the first child whose insert reports success; a failed insert
        -- returns its tree unchanged, so the remaining children stay as they were.
        let r0 := insert fuel c0 particle_index position
        if r0.2 then
          (.mk t'.boundsMin t'.boundsMax t'.particles (some (r0.1, c1, c2, c3))
            t'.max_particles t'.max_depth t'.depth, true)
        else
          let r1 := insert fuel c1 particle_index position
          if r1.2 then
            (.mk t'.boundsMin t'.boundsMax t'.particles (some (c0, r1.1, c2, c3))
              t'.max_particles t'.max_depth t'.depth, true)
          else
            let r2 := insert fuel c2 particle_index position
            if r2.2 then
              (.mk t'.boundsMin t'.boundsMax t'.particles (some (c0, c1, r2.1, c3))
                t'.max_particles t'.max_depth t'.depth, true)
            else
              let r3 := insert fuel c3 particle_index position
              if r3.2 then
                (.mk t'.boundsMin t'.boundsMax t'.particles (some (c0, c1, c2, r3.1))
                  t'.max_particles t'.max_depth t'.depth, true)
              else (t'.pushIdx particle_index, true)

/-- Number of occurrences of index `i` over all node lists of the tree. -/
def countIdx : QuadTree → ℕ → ℕ
  | .mk _ _ parts ch _ _ _, i =>
      parts.count i + (match ch with
        | none => 0
        | some (a, b, c, d) => countIdx a i + countIdx b i + countIdx c i + countIdx d i)

/-- Every node of the tree that stores index `i` has bounds containing `pos`. -/
def goodFor : QuadTree → ℕ → Vec2Q → Prop
  | t@(.mk _ _ parts ch _ _ _), i, pos =>
      (i ∈ parts → t.contains_point pos) ∧
      (match ch with
        | none => True
        | some (a, b, c, d) =>
            goodFor a i pos ∧ goodFor b i pos ∧ goodFor c i pos ∧ goodFor d i pos)

end QuadTree

/-- `QuadTreeManager` (spatial.rs:272–275). -/
structure QuadTreeManager where
  quadtree : QuadTree
  particle_positions : List Vec2Q

namespace QuadTreeManager

/-- `QuadTreeManager::new` (spatial.rs:277–283). -/
def new (bounds : Vec2Q × Vec2Q) (max_particles_per_node max_depth : ℕ) :
    QuadTreeManager :=
  { quadtree := QuadTree.new bounds max_particles_per_node max_depth,
    particle_positions := [] }

/-- `QuadTreeManager::update` (spatial.rs:285–294): clear, then insert every
particle index at its position.  The fuel `max_depth + 1` covers the deepest
possible descent of a tree grown from a cleared root. -/
def update (m : QuadTreeManager) (positions : List Vec2Q) : QuadTreeManager :=
  let root := m.quadtree.clear
  { quadtree := positions.enum.foldl
      (fun t ip => (t.insert (t.max_depth + 1) ip.1 ip.2).1) root,
    particle_positions := positions }

end QuadTreeManager

/-- The rebuild loop of `QuadTreeManager::update`, expressed over the index range
`0..k` (the enumerate-fold of the source, with positions fetched by index). -/
def quadFold (root : QuadTree) (positions : List Vec2Q) (k : ℕ) : QuadTree :=
  (List.range k).foldl
    (fun t j => (t.insert (t.max_depth + 1) j (positions.getD j default)).1) root

/-! ## Force and particle subsystem (`src/particle.rs`, `src/forces.rs`), over `ℝ` -/

noncomputable section

/-- `glam::Vec2` for the force subsystem, with real coordinates. -/
structure Vec2 where
  x : ℝ
  y : ℝ

namespace Vec2

instance : Zero Vec2 := ⟨⟨0, 0⟩⟩
instance : Add Vec2 := ⟨fun a b => ⟨a.x + b.x, a.y + b.y⟩⟩
instance : Sub Vec2 := ⟨fun a b => ⟨a.x - b.x, a.y - b.y⟩⟩
instance : Neg Vec2 := ⟨fun a => ⟨-a.x, -a.y⟩⟩
instance : SMul ℝ Vec2 := ⟨fun c a => ⟨c * a.x, c * a.y⟩⟩

/-- `Vec2::dot`. -/
def dot (a b : Vec2) : ℝ := a.x * b.x + a.y * b.y

/-- `Vec2::length_squared`. -/
def length_sq (a : Vec2) : ℝ := a.x * a.x + a.y * a.y

/-- `Vec2::length`. -/
def length (a : Vec2) : ℝ := Real.sqrt a.length_sq

/-- `Vec2::distance`. -/
def distance (a b : Vec2) : ℝ := (a - b).length

/-- `Vec2::normalize` (`self / length`).  Callers in the source only use it after
guarding `distance != 0`; at zero length the embedding yields `0` (Lean's `1/0 = 0`)
where `f32` would yield NaN — no claim depends on that point. -/
def normalize (a : Vec2) : Vec2 := (1 / a.length) • a

/-- `Vec2::normalize_or_zero`. -/
def normalize_or_zero (a : Vec2) : Vec2 :=
  if a.length = 0 then 0 else (1 / a.length) • a

/-- `Vec2::clamp_length_max` (glam): scale the vector down to length `max` when its
squared length exceeds `max * max`. -/
def clamp_length_max (a : Vec2) (m : ℝ) : Vec2 :=
  if m * m < a.length_sq then (m / Real.sqrt a.length_sq) • a else a

end Vec2

/-- `Particle` (particle.rs:5–20). -/
structure Particle where
  position : Vec2
  velocity : Vec2
  acceleration : Vec2
  mass : ℝ
  charge : ℝ
  age : ℝ
  lifespan : ℝ
  color : ℝ × ℝ × ℝ × ℝ
  species_id : ℕ
  energy : ℝ
  size : ℝ
  temperature : ℝ

/-- Placeholder used only for `List.getD`; all indexed statements below are
insensitive to its value.  (The source's `Particle::default` has an infinite
lifespan, which `ℝ` does not represent; no claim depends on it.) -/
instance : Inhabited Particle :=
  ⟨⟨0, 0, 0, 0, 0, 0, 0, (0, 0, 0, 0), 0, 0, 0, 0⟩⟩

namespace Particle

/-- `Particle::apply_force` (particle.rs:108–112): zero- (or negative-) mass
particles are force-immune; otherwise the acceleration accumulator gains
`force / mass`. -/
def apply_force (p : Particle) (force : Vec2) : Particle :=
  if 0 < p.mass then { p with acceleration := p.acceleration + (1 / p.mass) • force }
  else p

end Particle

/-- `ParticleSystem` (particle.rs:147–156). -/
structure ParticleSystem where
  particles : List Particle
  max_particles : ℕ
  spawn_rate : ℝ
  spawn_timer : ℝ
  bounds : Option (Vec2 × Vec2)
  wrap_boundaries : Bool
  damping : ℝ

namespace ParticleSystem

/-- `ParticleSystem::new` (particle.rs:159–169). -/
def new (max_particles : ℕ) : ParticleSystem :=
  { particles := [], max_particles := max_particles, spawn_rate := 10,
    spawn_timer := 0, bounds := none, wrap_boundaries := false, damping := 99 / 100 }

/-- `ParticleSystem::add_particle` (particle.rs:171–175): push only below the
capacity ceiling; at or above it the call silently does nothing.  The Rust
method's return type is `()`. -/
def add_particle (s : ParticleSystem) (particle : Particle) : ParticleSystem :=
  if s.particles.length < s.max_particles
  then { s with particles := s.particles ++ [particle] }
  else s

/-- The full call shape of `ParticleSystem::add_particle`, with its return value
made explicit: the method returns the unit value, not a boolean. -/
def add_particle_call (s : ParticleSystem) (particle : Particle) :
    ParticleSystem × Unit :=
  (s.add_particle particle, ())

/-- `ParticleSystem::center_of_mass` (particle.rs:243–259). -/
def center_of_mass (s : ParticleSystem) : Vec2 :=
  if s.particles.isEmpty then 0
  else
    let total_mass : ℝ := (s.particles.map (fun p => p.mass)).foldl (· + ·) 0
    if total_mass = 0 then 0
    else
      let weighted_position : Vec2 :=
        (s.particles.map (fun p => p.mass • p.position)).foldl (· + ·) 0
      (1 / total_mass) • weighted_position

end ParticleSystem

/-- `ForceType` (forces.rs:6–52). -/
inductive ForceType : Type where
  | Gravity (strength min_distance : ℝ)
  | ElectroMagnetic (strength min_distance : ℝ)
  | LennardJones (epsilon sigma : ℝ)
  | Damping (coefficient : ℝ)
  | Brownian (intensity : ℝ)
  | Attraction (strength max_distance : ℝ)
  | Repulsion (strength max_distance : ℝ)
  | Vortex (center : Vec2) (strength max_distance : ℝ)
  | Spring (rest_length stiffness damping : ℝ)
  | Flocking (separation_radius alignment_radius cohesion_radius
      separation_strength alignment_strength cohesion_strength : ℝ)

/-- Association-list lookup, modelling `HashMap::get`. -/
def assocFind {α β : Type} [DecidableEq α] (l : List (α × β)) (k : α) : Option β :=
  match l with
  | [] => none
  | (k0, v) :: rest => if k0 = k then some v else assocFind rest k

/-- `self.interactions.entry(key).or_insert_with(Vec::new).push(force)`. -/
def assocPush {α β : Type} [DecidableEq α] (l : List (α × List β)) (k : α) (v : β) :
    List (α × List β) :=
  match l with
  | [] => [(k, [v])]
  | (k0, vs) :: rest =>
      if k0 = k then (k0, vs ++ [v]) :: rest else (k0, vs) :: assocPush rest k v

/-- `InteractionMatrix` (forces.rs:54–58).  The `HashMap` keyed by canonicalized
species pairs is modelled as an association list with unique keys. -/
structure InteractionMatrix where
  interactions : List ((ℕ × ℕ) × List ForceType)
  default_forces : List ForceType

namespace InteractionMatrix

/-- `InteractionMatrix::default` (forces.rs:60–70). -/
def default : InteractionMatrix :=
  { interactions := [],
    default_forces := [.Damping (1 / 100), .Brownian (1 / 10)] }

/-- `InteractionMatrix::add_interaction` (forces.rs:77–85). -/
def add_interaction (m : InteractionMatrix) (species_a species_b : ℕ)
    (force : ForceType) : InteractionMatrix :=
  let key := if species_a ≤ species_b then (species_a, species_b)
             else (species_b, species_a)
  { m with interactions := assocPush m.interactions key force }

/-- `InteractionMatrix::get_forces` (forces.rs:87–98). -/
def get_forces (m : InteractionMatrix) (species_a species_b : ℕ) : List ForceType :=
  let key := if species_a ≤ species_b then (species_a, species_b)
             else (species_b, species_a)
  (assocFind m.interactions key).getD m.default_forces

end InteractionMatrix

/-- The stream of `rand::random::<f32>()` samples: an arbitrary oracle together
with the position of the next draw. -/
structure RandState where
  seq : ℕ → ℝ
  idx : ℕ

/-- One draw from the global RNG. -/
def RandState.next (rs : RandState) : ℝ × RandState :=
  (rs.seq rs.idx, ⟨rs.seq, rs.idx + 1⟩)

/-- `ForceCalculator` (forces.rs:101–105). -/
structure ForceCalculator where
  interaction_matrix : InteractionMatrix
  global_forces : List ForceType
  dt : ℝ

namespace ForceCalculator

/-- `ForceCalculator::calculate_gravitational_force` (forces.rs:232–239). -/
def calculate_gravitational_force (particle other : Particle)
    (strength min_distance : ℝ) : Vec2 :=
  let distance_vec := other.position - particle.position
  let distance := max distance_vec.length min_distance
  let direction := distance_vec.normalize_or_zero
  (strength * particle.mass * other.mass / (distance * distance)) • direction

/-- `ForceCalculator::calculate_electromagnetic_force` (forces.rs:241–248). -/
def calculate_electromagnetic_force (particle other : Particle)
    (strength min_distance : ℝ) : Vec2 :=
  let distance_vec := other.position - particle.position
  let distance := max distance_vec.length min_distance
  let direction := distance_vec.normalize_or_zero
  (strength * particle.charge * other.charge / (distance * distance)) • direction

/-- `ForceCalculator::calculate_lennard_jones_force` (forces.rs:250–265). -/
def calculate_lennard_jones_force (particle other : Particle)
    (epsilon sigma : ℝ) : Vec2 :=
  let distance_vec := other.position - particle.position
  let distance := distance_vec.length
  if distance = 0 then 0
  else
    let direction := distance_vec.normalize
    let r_over_sigma := distance / sigma
    let r6 := r_over_sigma ^ (6 : ℕ)
    let r12 := r6 * r6
    (24 * epsilon * (2 / r12 - 1 / r6) / distance) • direction

/-- `ForceCalculator::calculate_attraction_force` (forces.rs:267–278). -/
def calculate_attraction_force (particle other : Particle)
    (strength max_distance : ℝ) : Vec2 :=
  let distance_vec := other.position - particle.position
  let distance := distance_vec.length
  if distance > max_distance ∨ distance = 0 then 0
  else (strength * (1 - distance / max_distance)) • distance_vec.normalize

/-- `ForceCalculator::calculate_repulsion_force` (forces.rs:280–291). -/
def calculate_repulsion_force (particle other : Particle)
    (strength max_distance : ℝ) : Vec2 :=
  let distance_vec := other.position - particle.position
  let distance := distance_vec.length
  if distance > max_distance ∨ distance = 0 then 0
  else (strength * (1 - distance / max_distance)) • (-distance_vec.normalize)

/-- `ForceCalculator::calculate_vortex_force` (forces.rs:293–304). -/
def calculate_vortex_force (particle : Particle) (center : Vec2)
    (strength max_distance : ℝ) : Vec2 :=
  let distance_vec := particle.position - center
  let distance := distance_vec.length
  if distance > max_distance ∨ distance = 0 then 0
  else
    let tangent := Vec2.normalize ⟨-distance_vec.y, distance_vec.x⟩
    (strength * (1 - distance / max_distance)) • tangent

/-- `ForceCalculator::calculate_spring_force` (forces.rs:306–322). -/
def calculate_spring_force (particle other : Particle)
    (rest_length stiffness damping : ℝ) : Vec2 :=
  let distance_vec := other.position - particle.position
  let distance := distance_vec.length
  if distance = 0 then 0
  else
    let direction := distance_vec.normalize
    let displacement := distance - rest_length
    let spring_force := stiffness * displacement
    let relative_velocity := other.velocity - particle.velocity
    let damping_force := damping * (relative_velocity.dot direction)
    (spring_force + damping_force) • direction

/-- `ForceCalculator::calculate_flocking_force` (forces.rs:324–387). -/
def calculate_flocking_force (particle : Particle) (index : ℕ)
    (all_particles : List Particle) (force_type : ForceType) : Vec2 :=
  match force_type with
  | .Flocking separation_radius alignment_radius cohesion_radius
      separation_strength alignment_strength cohesion_strength =>
    let acc := all_particles.enum.foldl
      (fun (st : Vec2 × Vec2 × Vec2 × ℕ × ℕ × ℕ) io =>
        let (separation, alignment, cohesion, sep_count, align_count, coh_count) := st
        let (i, other) := io
        if i = index ∨ other.species_id ≠ particle.species_id then st
        else
          let distance_vec := other.position - particle.position
          let distance := distance_vec.length
          let (separation, sep_count) :=
            if 0 < distance ∧ distance < separation_radius
            then (separation - (1 / distance) • distance_vec.normalize, sep_count + 1)
            else (separation, sep_count)
          let (alignment, align_count) :=
            if 0 < distance ∧ distance < alignment_radius
            then (alignment + other.velocity, align_count + 1)
            else (alignment, align_count)
          let (cohesion, coh_count) :=
            if 0 < distance ∧ distance < cohesion_radius
            then (cohesion + other.position, coh_count + 1)
            else (cohesion, coh_count)
          (separation, alignment, cohesion, sep_count, align_count, coh_count))
      (0, 0, 0, 0, 0, 0)
    let (separation, alignment, cohesion, sep_count, align_count, coh_count) := acc
    let total_force : Vec2 := 0
    let total_force :=
      if 0 < sep_count then
        total_force + separation_strength •
          Vec2.normalize_or_zero ((1 / (sep_count : ℝ)) • separation)
      else total_force
    let total_force :=
      if 0 < align_count then
        total_force + alignment_strength • Vec2.normalize_or_zero
          ((1 / (align_count : ℝ)) • alignment - particle.velocity)
      else total_force
    let total_force :=
      if 0 < coh_count then
        total_force + cohesion_strength • Vec2.normalize_or_zero
          ((1 / (coh_count : ℝ)) • cohesion - particle.position)
      else total_force
    total_force
  | _ => 0

/-- `ForceCalculator::calculate_force` (forces.rs:172–230).  The Brownian branch
draws two RNG samples (x then y); every other branch leaves the RNG untouched. -/
def calculate_force (_fc : ForceCalculator) (force_type : ForceType)
    (particle : Particle) (other : Option Particle) (rs : RandState) :
    Vec2 × RandState :=
  match force_type with
  | .Gravity strength min_distance =>
      (match other with
       | some other => calculate_gravitational_force particle other strength min_distance
       | none => 0, rs)
  | .ElectroMagnetic strength min_distance =>
      (match other with
       | some other => calculate_electromagnetic_force particle other strength min_distance
       | none => 0, rs)
  | .LennardJones epsilon sigma =>
      (match other with
       | some other => calculate_lennard_jones_force particle other epsilon sigma
       | none => 0, rs)
  | .Damping coefficient => ((-coefficient) • particle.velocity, rs)
  | .Brownian intensity =>
      let (r1, rs1) := rs.next
      let (r2, rs2) := rs1.next
      (⟨(r1 - 1/2) * intensity, (r2 - 1/2) * intensity⟩, rs2)
  | .Attraction strength max_distance =>
      (match other with
       | some other => calculate_attraction_force particle other strength max_distance
       | none => 0, rs)
  | .Repulsion strength max_distance =>
      (match other with
       | some other => calculate_repulsion_force particle other strength max_distance
       | none => 0, rs)
  | .Vortex center strength max_distance =>
      (calculate_vortex_force particle center strength max_distance, rs)
  | .Spring rest_length stiffness damping =>
      (match other with
       | some other => calculate_spring_force particle other rest_length stiffness damping
       | none => 0, rs)
  | .Flocking _ _ _ _ _ _ => (0, rs)

/-- `ForceCalculator::apply_global_forces` (forces.rs:147–152). -/
def apply_global_forces (fc : ForceCalculator) (particle : Particle)
    (rs : RandState) : Particle × RandState :=
  fc.global_forces.foldl
    (fun st force =>
      let (force_vec, rs1) := fc.calculate_force force st.1 none st.2
      (st.1.apply_force force_vec, rs1))
    (particle, rs)

/-- `ForceCalculator::apply_pair_forces` (forces.rs:154–161). -/
def apply_pair_forces (fc : ForceCalculator) (particle other : Particle)
    (rs : RandState) : Particle × RandState :=
  (fc.interaction_matrix.get_forces particle.species_id other.species_id).foldl
    (fun st force_type =>
      let (force_vec, rs1) := fc.calculate_force force_type st.1 (some other) st.2
      (st.1.apply_force force_vec, rs1))
    (particle, rs)

/-- `ForceCalculator::apply_flocking_forces` (forces.rs:163–170). -/
def apply_flocking_forces (fc : ForceCalculator) (particle : Particle) (index : ℕ)
    (all_particles : List Particle) (rs : RandState) : Particle × RandState :=
  fc.global_forces.foldl
    (fun st force_type =>
      match force_type with
      | .Flocking a b c d e f =>
          (st.1.apply_force (calculate_flocking_force st.1 index all_particles
            (.Flocking a b c d e f)), st.2)
      | _ => st)
    (particle, rs)

/-- The inner pair loop of `ForceCalculator::apply_forces` (forces.rs:137–141):
`for (j, other) in particles_copy.iter().enumerate() { if i != j { … } }`. -/
def pair_phase (fc : ForceCalculator) (particles_copy : List Particle) (i : ℕ)
    (st : Particle × RandState) : Particle × RandState :=
  particles_copy.enum.foldl
    (fun st jo => if i ≠ jo.1 then fc.apply_pair_forces st.1 jo.2 st.2 else st) st

/-- The body of the per-particle loop of `ForceCalculator::apply_forces`
(forces.rs:134–144): apply global forces, the pair loop over the snapshot, and
the flocking pass to particle `i`. -/
def apply_one (fc : ForceCalculator) (particles_copy : List Particle) (i : ℕ)
    (particle : Particle) (rs : RandState) : Particle × RandState :=
  let (p1, rs1) := fc.apply_global_forces particle rs
  let (p2, rs2) := fc.pair_phase particles_copy i (p1, rs1)
  fc.apply_flocking_forces p2 i particles_copy rs2

/-- `ForceCalculator::apply_forces` (forces.rs:131–145): snapshot the particle
list, then run the per-particle loop body on every particle. -/
def apply_forces (fc : ForceCalculator) (system : ParticleSystem) (rs : RandState) :
    ParticleSystem × RandState :=
  let particles_copy := system.particles
  let folded := particles_copy.enum.foldl
    (fun (acc : List Particle × RandState) ip =>
      let (p3, rs3) := fc.apply_one particles_copy ip.1 ip.2 acc.2
      (acc.1 ++ [p3], rs3))
    ([], rs)
  ({ system with particles := folded.1 }, folded.2)

/-- The indices `j` against which `apply_forces` evaluates pair force laws for
particle `i`: every index of the snapshot except `i` itself (the trace of the
loop at forces.rs:137–141). -/
def pair_partners (n i : ℕ) : List ℕ := (List.range n).filter (fun j => i ≠ j)

end ForceCalculator

/-- `IntegrationMethod` (forces.rs:400–405). -/
inductive IntegrationMethod : Type where
  | Euler
  | Verlet
  | RungeKutta4

/-- `PhysicsConfig` (forces.rs:390–398). -/
structure PhysicsConfig where
  integration_method : IntegrationMethod
  dt : ℝ
  max_force : ℝ
  max_velocity : ℝ
  enable_collisions : Bool
  collision_restitution : ℝ

/-- `PhysicsEngine` (forces.rs:420–424). -/
structure PhysicsEngine where
  config : PhysicsConfig
  force_calculator : ForceCalculator
  previous_positions : List Vec2

namespace PhysicsEngine

/-- `PhysicsEngine::euler_integration` (forces.rs:450–460). -/
def euler_integration (e : PhysicsEngine) (system : ParticleSystem) :
    ParticleSystem :=
  { system with particles := system.particles.map (fun particle =>
      let old_velocity := particle.velocity
      let velocity1 := particle.velocity + e.config.dt • particle.acceleration
      let velocity2 := velocity1.clamp_length_max e.config.max_velocity
      { particle with
        velocity := velocity2,
        position := particle.position + e.config.dt • old_velocity,
        age := particle.age + e.config.dt,
        acceleration := 0 }) }

end PhysicsEngine

/-- The per-particle state outside the acceleration accumulator: two particles
agree on position, velocity, mass, charge, species id, size, age, lifespan. -/
def Particle.agreesExceptAccel (a b : Particle) : Prop :=
  a.position = b.position ∧ a.velocity = b.velocity ∧ a.mass = b.mass ∧
  a.charge = b.charge ∧ a.species_id = b.species_id ∧ a.size = b.size ∧
  a.age = b.age ∧ a.lifespan = b.lifespan

/-- A unit-mass particle at rest at `pos` (the spec's concrete Gravity scenario
uses two of these, at (0,0) and (1,0)). -/
def unitParticleAt (pos : Vec2) : Particle :=
  { position := pos, velocity := 0, acceleration := 0, mass := 1, charge := 0,
    age := 0, lifespan := 1, color := (1, 1, 1, 1), species_id := 0, energy := 1,
    size := 1, temperature := 1 }

/-- A concrete physics engine (Euler scheme, dt = 1, max_velocity = 100) used to
witness the integrator claims. -/
def witnessEngine : PhysicsEngine :=
  { config :=
      { integration_method := .Euler, dt := 1, max_force := 1000,
        max_velocity := 100, enable_collisions := false,
        collision_restitution := 8 / 10 },
    force_calculator :=
      { interaction_matrix := InteractionMatrix.default,
        global_forces := [], dt := 1 },
    previous_positions := [] }

/-- A concrete one-particle system used to witness the integrator claims. -/
def witnessSystem : ParticleSystem :=
  { ParticleSystem.new 10 with particles := [unitParticleAt ⟨3, 4⟩] }

/-- The cells of a grid whose bucket stores index `i`, in map order. -/
def cellsHolding (gl : List ((ℤ × ℤ) × List ℕ)) (i : ℕ) : List (ℤ × ℤ) :=
  (gl.filter (fun e => i ∈ e.2)).map (fun e => e.1)

def SpatialGrid.cells_holding (g : SpatialGrid) (i : ℕ) : List (ℤ × ℤ) :=
  cellsHolding g.grid i

/-- Every index stored in the cell map is below `n`. -/
def allBelow (gl : List ((ℤ × ℤ) × List ℕ)) (n : ℕ) : Prop :=
  ∀ e ∈ gl, ∀ j ∈ e.2, j < n

/-- Modelled from the spec (claim C1): the candidate partner indices for particle
`i` that a spatial-index radius query bounding a force law's interaction cutoff
would supply — the grid's `query_neighbors` at the particle's position, minus the
particle itself. -/
def spec_pair_candidates (g : SpatialGrid) (i : ℕ) (cutoff : ℚ) : List ℕ :=
  (g.query_neighbors (g.particle_positions.getD i ⟨0, 0⟩) cutoff).filter
    (fun j => j ≠ i)

end

/-! ## Helper lemmas -/

namespace Vec2

theorem ext_iff {a b : Vec2} : a = b ↔ a.x = b.x ∧ a.y = b.y := by
  cases a; cases b; simp

@[simp] theorem zero_x : (0 : Vec2).x = 0 := rfl
@[simp] theorem zero_y : (0 : Vec2).y = 0 := rfl
@[simp] theorem add_x (a b : Vec2) : (a + b).x = a.x + b.x := rfl
@[simp] theorem add_y (a b : Vec2) : (a + b).y = a.y + b.y := rfl
@[simp] theorem sub_x (a b : Vec2) : (a - b).x = a.x - b.x := rfl
@[simp] theorem sub_y (a b : Vec2) : (a - b).y = a.y - b.y := rfl
@[simp] theorem neg_x (a : Vec2) : (-a).x = -a.x := rfl
@[simp] theorem neg_y (a : Vec2) : (-a).y = -a.y := rfl
@[simp] theorem smul_x (c : ℝ) (a : Vec2) : (c • a).x = c * a.x := rfl
@[simp] theorem smul_y (c : ℝ) (a : Vec2) : (c • a).y = c * a.y := rfl

@[simp] theorem smul_zero_vec (c : ℝ) : c • (0 : Vec2) = 0 := by
  simp [ext_iff]

@[simp] theorem zero_smul_vec (a : Vec2) : (0 : ℝ) • a = 0 := by
  simp [ext_iff]

theorem length_sq_nonneg (a : Vec2) : 0 ≤ a.length_sq := by
  have := mul_self_nonneg a.x
  have := mul_self_nonneg a.y
  unfold length_sq; linarith

theorem length_nonneg (a : Vec2) : 0 ≤ a.length := Real.sqrt_nonneg _

@[simp] theorem length_zero : (0 : Vec2).length = 0 := by
  simp [length, length_sq]

theorem length_eq_zero_iff {a : Vec2} : a.length = 0 ↔ a = 0 := by
  unfold length
  rw [Real.sqrt_eq_zero (length_sq_nonneg a)]
  constructor
  · intro h
    have hx := mul_self_nonneg a.x
    have hy := mul_self_nonneg a.y
    unfold length_sq at h
    rw [ext_iff]
    simp only [zero_x, zero_y]
    exact ⟨mul_self_eq_zero.mp (by linarith), mul_self_eq_zero.mp (by linarith)⟩
  · intro h; subst h; simp [length_sq]

theorem length_pos_of_ne_zero {a : Vec2} (h : a ≠ 0) : 0 < a.length :=
  lt_of_le_of_ne (length_nonneg a) (fun e => h (length_eq_zero_iff.mp e.symm))

theorem length_smul (c : ℝ) (a : Vec2) : (c • a).length = |c| * a.length := by
  unfold length length_sq
  simp only [smul_x, smul_y]
  rw [show c * a.x * (c * a.x) + c * a.y * (c * a.y)
        = (c * c) * (a.x * a.x + a.y * a.y) by ring]
  rw [Real.sqrt_mul (mul_self_nonneg c), Real.sqrt_mul_self_eq_abs]

@[simp] theorem length_neg (a : Vec2) : (-a).length = a.length := by
  unfold length length_sq; simp only [neg_x, neg_y]; ring_nf

theorem length_normalize {a : Vec2} (h : a ≠ 0) : a.normalize.length = 1 := by
  have hl : 0 < a.length := length_pos_of_ne_zero h
  unfold normalize
  rw [length_smul, abs_of_pos (by positivity : (0:ℝ) < 1 / a.length)]
  field_simp

theorem normalize_or_zero_of_ne_zero {a : Vec2} (h : a ≠ 0) :
    a.normalize_or_zero = (1 / a.length) • a := by
  unfold normalize_or_zero
  rw [if_neg (fun e => h (length_eq_zero_iff.mp e))]

end Vec2

/-! ## Claim C8: Interaction-Matrix lookups are symmetric and total -/

/-- C8: for every pair of species ids `(a, b)` the Interaction-Matrix lookup is
symmetric — `get_forces a b = get_forces b a` — and total: when no entry exists
for the canonicalized pair, the lookup returns the default force list. -/
theorem C8_get_forces_symmetric_total (m : InteractionMatrix) (a b : ℕ) :
    m.get_forces a b = m.get_forces b a ∧
    (assocFind m.interactions (if a ≤ b then (a, b) else (b, a)) = none →
      m.get_forces a b = m.default_forces) := by
  have key : (if a ≤ b then (a, b) else (b, a)) = (if b ≤ a then (b, a) else (a, b)) := by
    by_cases h1 : a ≤ b <;> by_cases h2 : b ≤ a <;> simp [h1, h2]
    · cases le_antisymm h1 h2; exact ⟨rfl, rfl⟩
    · omega
  constructor
  · simp only [InteractionMatrix.get_forces]
    rw [key]
  · intro h
    simp only [InteractionMatrix.get_forces]
    rw [h]
    rfl

/-- Witness for C8 at a concrete matrix: the default matrix has no entry for the
pair (2, 1), so the lookup is symmetric and falls back to the default list. -/
theorem C8_witness :
    InteractionMatrix.default.get_forces 2 1 = InteractionMatrix.default.get_forces 1 2 ∧
    InteractionMatrix.default.get_forces 2 1 = InteractionMatrix.default.default_forces :=
  ⟨(C8_get_forces_symmetric_total InteractionMatrix.default 2 1).1,
   (C8_get_forces_symmetric_total InteractionMatrix.default 2 1).2 rfl⟩

/-! ## Claim C5: insertion at capacity -/

/-- C5 (amended): inserting into a store at capacity leaves the particle sequence
unchanged (the source silently drops the particle; its return type is `()`, so no
boolean is returned); inserting below capacity appends, and a store within its
capacity stays within it. -/
theorem C5_add_particle_soft_limit (s : ParticleSystem) (p : Particle) :
    (s.particles.length = s.max_particles → s.add_particle p = s) ∧
    (s.particles.length < s.max_particles →
      (s.add_particle p).particles = s.particles ++ [p]) ∧
    (s.particles.length ≤ s.max_particles →
      (s.add_particle p).particles.length ≤ s.max_particles) := by
  refine ⟨?_, ?_, ?_⟩
  · intro h
    unfold ParticleSystem.add_particle
    rw [if_neg (by omega)]
  · intro h
    unfold ParticleSystem.add_particle
    rw [if_pos h]
  · intro h
    unfold ParticleSystem.add_particle
    by_cases hlt : s.particles.length < s.max_particles
    · rw [if_pos hlt]; simp; omega
    · rw [if_neg hlt]; exact h

/-- Witness for C5 at concrete stores: a store of capacity 0 at capacity is left
unchanged; a store of capacity 1 below capacity gets the particle appended. -/
theorem C5_witness :
    ((ParticleSystem.new 0).particles.length = (ParticleSystem.new 0).max_particles ∧
      (ParticleSystem.new 0).add_particle default = ParticleSystem.new 0) ∧
    ((ParticleSystem.new 1).particles.length < (ParticleSystem.new 1).max_particles ∧
      ((ParticleSystem.new 1).add_particle default).particles = [default]) :=
  ⟨⟨rfl, (C5_add_particle_soft_limit (ParticleSystem.new 0) default).1 rfl⟩,
   ⟨Nat.zero_lt_one,
    (C5_add_particle_soft_limit (ParticleSystem.new 1) default).2.1 Nat.zero_lt_one⟩⟩

/-- C5 counterexample: the claim says a rejected insertion "returns the boolean
false" — per the spec, capacity exhaustion is "signaled via a boolean return".
The source method returns the unit value on every call (particle.rs:171 declares
no return type), so no decoding of the returned value can distinguish a rejected
insertion (store of capacity 0, at capacity) from an accepted one (store of
capacity 1, below capacity): no boolean is returned at all. -/
theorem C5_counterexample :
    ¬ ∃ dec : Unit → Bool,
      dec ((ParticleSystem.new 0).add_particle_call default).2 = false ∧
      dec ((ParticleSystem.new 1).add_particle_call default).2 = true := by
  rintro ⟨dec, h1, h2⟩
  have : (false : Bool) = true := by
    rw [← h1, ← h2]
  exact Bool.noConfusion this

/-! ## Claim C10: mass-weighted center of position -/

/-- C10: `center_of_mass` returns the zero vector when the store is empty and when
the total mass is zero; otherwise it returns the mass-weighted position sum
divided by the total mass. -/
theorem C10_center_of_mass_cases (s : ParticleSystem) :
    (s.particles = [] → s.center_of_mass = 0) ∧
    (s.particles ≠ [] →
      (s.particles.map (fun p => p.mass)).foldl (· + ·) 0 = 0 →
      s.center_of_mass = 0) ∧
    ((s.particles.map (fun p => p.mass)).foldl (· + ·) 0 ≠ 0 →
      s.center_of_mass =
        (1 / ((s.particles.map (fun p => p.mass)).foldl (· + ·) 0)) •
          ((s.particles.map (fun p => p.mass • p.position)).foldl (· + ·) 0)) := by
  refine ⟨?_, ?_, ?_⟩
  · intro h
    simp [ParticleSystem.center_of_mass, h]
  · intro h hm
    simp only [ParticleSystem.center_of_mass]
    rw [if_neg (by simp [h]), if_pos hm]
  · intro hm
    have h : s.particles ≠ [] := by
      intro h; apply hm; rw [h]; rfl
    simp only [ParticleSystem.center_of_mass]
    rw [if_neg (by simp [h]), if_neg hm]

/-- Witness for C10 at a concrete store: one particle of mass 2 at (4,6) gives a
nonzero total mass and the weighted average. -/
theorem C10_witness :
    (({ ParticleSystem.new 10 with
        particles := [{ unitParticleAt ⟨4, 6⟩ with mass := 2 }] } :
          ParticleSystem).particles.map (fun p => p.mass)).foldl (· + ·) 0 ≠ 0 ∧
    ({ ParticleSystem.new 10 with
        particles := [{ unitParticleAt ⟨4, 6⟩ with mass := 2 }] } :
          ParticleSystem).center_of_mass = ⟨4, 6⟩ := by
  have hm : (({ ParticleSystem.new 10 with
      particles := [{ unitParticleAt ⟨4, 6⟩ with mass := 2 }] } :
        ParticleSystem).particles.map (fun p => p.mass)).foldl (· + ·) 0 ≠ 0 := by
    simp [ParticleSystem.new, unitParticleAt]
  refine ⟨hm, ?_⟩
  rw [(C10_center_of_mass_cases _).2.2 hm]
  simp [ParticleSystem.new, unitParticleAt, Vec2.ext_iff]

theorem Vec2.smul_smul_vec (c d : ℝ) (a : Vec2) : c • (d • a) = (c * d) • a := by
  simp [Vec2.ext_iff]; constructor <;> ring

theorem Vec2.sub_eq_zero_iff {a b : Vec2} : a - b = 0 ↔ a = b := by
  simp [Vec2.ext_iff, sub_eq_zero]

theorem Vec2.one_smul_vec (a : Vec2) : (1 : ℝ) • a = a := by
  simp [Vec2.ext_iff]

/-! ## Claim C9: Attraction/Repulsion magnitudes -/

/-- C9: the Attraction and Repulsion force laws produce a force of magnitude
exactly zero at inter-particle distance ≥ max_distance and at distance zero; for
distances strictly between 0 and max_distance (and nonnegative strength) the
magnitude is strength · (1 − distance/max_distance). -/
theorem C9_attraction_repulsion_magnitude (particle other : Particle)
    (strength max_distance : ℝ) :
    ((max_distance ≤ (other.position - particle.position).length ∨
        (other.position - particle.position).length = 0) →
      ForceCalculator.calculate_attraction_force particle other strength max_distance
        = 0 ∧
      ForceCalculator.calculate_repulsion_force particle other strength max_distance
        = 0) ∧
    (0 < (other.position - particle.position).length →
      (other.position - particle.position).length < max_distance →
      0 ≤ strength →
      (ForceCalculator.calculate_attraction_force particle other strength
          max_distance).length =
        strength * (1 - (other.position - particle.position).length / max_distance) ∧
      (ForceCalculator.calculate_repulsion_force particle other strength
          max_distance).length =
        strength * (1 - (other.position - particle.position).length / max_distance)) := by
  set dv := other.position - particle.position with hdv
  constructor
  · intro h
    unfold ForceCalculator.calculate_attraction_force
      ForceCalculator.calculate_repulsion_force
    by_cases hc : dv.length > max_distance ∨ dv.length = 0
    · rw [← hdv, if_pos hc, if_pos hc]; exact ⟨rfl, rfl⟩
    · push_neg at hc
      obtain ⟨hle, hne⟩ := hc
      have heq : dv.length = max_distance := by
        rcases h with h | h
        · exact le_antisymm hle h
        · exact absurd h hne
      have hmd : max_distance ≠ 0 := by rw [← heq]; exact hne
      have hz : strength * (1 - dv.length / max_distance) = 0 := by
        rw [heq, div_self hmd]; ring
      rw [← hdv, if_neg (by push_neg; exact ⟨hle, hne⟩),
          if_neg (by push_neg; exact ⟨hle, hne⟩), hz]
      simp
  · intro hd0 hdm hs
    have hne : dv.length ≠ 0 := ne_of_gt hd0
    have hdvne : dv ≠ 0 := fun e => hne (by rw [e]; exact Vec2.length_zero)
    have hmd0 : 0 < max_distance := lt_trans hd0 hdm
    have hcoef : 0 ≤ strength * (1 - dv.length / max_distance) := by
      have : dv.length / max_distance < 1 := (div_lt_one hmd0).mpr hdm
      nlinarith
    have hcond : ¬ (dv.length > max_distance ∨ dv.length = 0) := by
      push_neg; exact ⟨le_of_lt hdm, hne⟩
    unfold ForceCalculator.calculate_attraction_force
      ForceCalculator.calculate_repulsion_force
    rw [← hdv, if_neg hcond, if_neg hcond]
    constructor
    · rw [Vec2.length_smul, Vec2.length_normalize hdvne,
        abs_of_nonneg hcoef, mul_one]
    · rw [Vec2.length_smul, Vec2.length_neg, Vec2.length_normalize hdvne,
        abs_of_nonneg hcoef, mul_one]

/-- Witness for C9 at concrete particles: (0,0) and (3,4) are at distance 5;
with strength 2 and max_distance 10 both magnitudes are 2·(1 − 5/10) = 1. -/
theorem C9_witness :
    0 < ((unitParticleAt ⟨3, 4⟩).position - (unitParticleAt ⟨0, 0⟩).position).length ∧
    ((unitParticleAt ⟨3, 4⟩).position - (unitParticleAt ⟨0, 0⟩).position).length < 10 ∧
    (ForceCalculator.calculate_attraction_force (unitParticleAt ⟨0, 0⟩)
        (unitParticleAt ⟨3, 4⟩) 2 10).length =
      2 * (1 - ((unitParticleAt ⟨3, 4⟩).position -
        (unitParticleAt ⟨0, 0⟩).position).length / 10) ∧
    (ForceCalculator.calculate_repulsion_force (unitParticleAt ⟨0, 0⟩)
        (unitParticleAt ⟨3, 4⟩) 2 10).length =
      2 * (1 - ((unitParticleAt ⟨3, 4⟩).position -
        (unitParticleAt ⟨0, 0⟩).position).length / 10) := by
  have hlen : ((unitParticleAt ⟨3, 4⟩).position -
      (unitParticleAt ⟨0, 0⟩).position).length = 5 := by
    simp only [unitParticleAt, Vec2.length, Vec2.length_sq, Vec2.sub_x, Vec2.sub_y]
    norm_num
    rw [show (25 : ℝ) = 5 ^ 2 by norm_num, Real.sqrt_sq (by norm_num : (0:ℝ) ≤ 5)]
  have h1 : 0 < ((unitParticleAt ⟨3, 4⟩).position -
      (unitParticleAt ⟨0, 0⟩).position).length := by rw [hlen]; norm_num
  have h2 : ((unitParticleAt ⟨3, 4⟩).position -
      (unitParticleAt ⟨0, 0⟩).position).length < 10 := by rw [hlen]; norm_num
  have h3 := (C9_attraction_repulsion_magnitude (unitParticleAt ⟨0, 0⟩)
    (unitParticleAt ⟨3, 4⟩) 2 10).2 h1 h2 (by norm_num)
  exact ⟨h1, h2, h3.1, h3.2⟩

/-! ## Claim C2: the Gravity force law -/

/-- C2 (amended): for any two particles at distinct positions with positive
masses, Gravity with positive strength produces a force on the acted-upon
particle pointing toward the other particle (a positive multiple of the
displacement vector) with magnitude strength·m₁·m₂ / max(distance, min_distance)²;
in particular the spec's concrete scenario — particles at (0,0) and (1,0), both of
mass 1, strength 1, min_distance 0.01 — yields the force (1, 0).  (At coincident
positions the source's `normalize_or_zero` makes the force zero; see the
counterexample.) -/
theorem C2_gravity_force :
    (∀ (particle other : Particle) (strength min_distance : ℝ),
      0 < particle.mass → 0 < other.mass → 0 < strength →
      particle.position ≠ other.position →
      ∃ c : ℝ, 0 < c ∧
        ForceCalculator.calculate_gravitational_force particle other strength
          min_distance = c • (other.position - particle.position) ∧
        (ForceCalculator.calculate_gravitational_force particle other strength
            min_distance).length =
          strength * particle.mass * other.mass /
            (max (other.position - particle.position).length min_distance *
             max (other.position - particle.position).length min_distance)) ∧
    ForceCalculator.calculate_gravitational_force (unitParticleAt ⟨0, 0⟩)
      (unitParticleAt ⟨1, 0⟩) 1 (1 / 100) = ⟨1, 0⟩ := by
  constructor
  · intro particle other strength min_distance hm1 hm2 hs hpos
    set dv := other.position - particle.position with hdv
    have hdvne : dv ≠ 0 := by
      rw [hdv, Ne, Vec2.sub_eq_zero_iff]
      exact fun e => hpos e.symm
    have hd0 : 0 < dv.length := Vec2.length_pos_of_ne_zero hdvne
    have hdist : 0 < max dv.length min_distance := lt_of_lt_of_le hd0 (le_max_left _ _)
    have hmag : 0 < strength * particle.mass * other.mass /
        (max dv.length min_distance * max dv.length min_distance) := by positivity
    refine ⟨strength * particle.mass * other.mass /
      (max dv.length min_distance * max dv.length min_distance) / dv.length,
      by positivity, ?_, ?_⟩
    · unfold ForceCalculator.calculate_gravitational_force
      dsimp only
      rw [← hdv, Vec2.normalize_or_zero_of_ne_zero hdvne, Vec2.smul_smul_vec]
      congr 1
      field_simp
    · unfold ForceCalculator.calculate_gravitational_force
      dsimp only
      rw [← hdv, Vec2.normalize_or_zero_of_ne_zero hdvne, Vec2.smul_smul_vec,
        Vec2.length_smul]
      rw [abs_of_nonneg (by positivity)]
      field_simp
      ring
  · have hdv : (unitParticleAt ⟨1, 0⟩).position - (unitParticleAt ⟨0, 0⟩).position
        = (⟨1, 0⟩ : Vec2) := by
      simp [unitParticleAt, Vec2.ext_iff]
    have hlen : (⟨1, 0⟩ : Vec2).length = 1 := by
      simp only [Vec2.length, Vec2.length_sq]
      norm_num
    unfold ForceCalculator.calculate_gravitational_force
    dsimp only
    rw [hdv, hlen]
    have hmax : max (1 : ℝ) (1 / 100) = 1 := max_eq_left (by norm_num)
    rw [hmax]
    rw [Vec2.normalize_or_zero_of_ne_zero (by
      rw [Ne, Vec2.ext_iff]; push_neg; intro h; norm_num at h), hlen]
    simp [unitParticleAt, Vec2.ext_iff]

/-- Witness for C2 at a concrete pair: particles at (0,0) and (2,0), masses 1,
strength 3, min_distance 0.01. -/
theorem C2_witness :
    ∃ c : ℝ, 0 < c ∧
      ForceCalculator.calculate_gravitational_force (unitParticleAt ⟨0, 0⟩)
        (unitParticleAt ⟨2, 0⟩) 3 (1 / 100) =
        c • ((unitParticleAt ⟨2, 0⟩).position - (unitParticleAt ⟨0, 0⟩).position) ∧
      (ForceCalculator.calculate_gravitational_force (unitParticleAt ⟨0, 0⟩)
          (unitParticleAt ⟨2, 0⟩) 3 (1 / 100)).length =
        3 * (unitParticleAt ⟨0, 0⟩).mass * (unitParticleAt ⟨2, 0⟩).mass /
          (max ((unitParticleAt ⟨2, 0⟩).position -
            (unitParticleAt ⟨0, 0⟩).position).length (1 / 100) *
           max ((unitParticleAt ⟨2, 0⟩).position -
            (unitParticleAt ⟨0, 0⟩).position).length (1 / 100)) :=
  C2_gravity_force.1 (unitParticleAt ⟨0, 0⟩) (unitParticleAt ⟨2, 0⟩) 3 (1 / 100)
    (by norm_num [unitParticleAt]) (by norm_num [unitParticleAt]) (by norm_num)
    (by simp [unitParticleAt, Vec2.ext_iff])

/-- C2 counterexample: at coincident positions ("for any two particles" includes
them) the source force is zero while the claim's magnitude formula
strength·m₁·m₂ / max(distance, min_distance)² evaluates to 1/0.01² = 10000 ≠ 0:
`normalize_or_zero` yields the zero direction, so no force of the claimed
magnitude is produced. -/
theorem C2_counterexample :
    ForceCalculator.calculate_gravitational_force (unitParticleAt ⟨0, 0⟩)
      (unitParticleAt ⟨0, 0⟩) 1 (1 / 100) = 0 ∧
    (ForceCalculator.calculate_gravitational_force (unitParticleAt ⟨0, 0⟩)
        (unitParticleAt ⟨0, 0⟩) 1 (1 / 100)).length ≠
      1 * (unitParticleAt ⟨0, 0⟩).mass * (unitParticleAt ⟨0, 0⟩).mass /
        (max ((unitParticleAt ⟨0, 0⟩).position -
          (unitParticleAt ⟨0, 0⟩).position).length (1 / 100) *
         max ((unitParticleAt ⟨0, 0⟩).position -
          (unitParticleAt ⟨0, 0⟩).position).length (1 / 100)) := by
  have hdv : (unitParticleAt ⟨0, 0⟩).position - (unitParticleAt ⟨0, 0⟩).position
      = (0 : Vec2) := by
    simp [unitParticleAt, Vec2.ext_iff]
  have hforce : ForceCalculator.calculate_gravitational_force (unitParticleAt ⟨0, 0⟩)
      (unitParticleAt ⟨0, 0⟩) 1 (1 / 100) = 0 := by
    unfold ForceCalculator.calculate_gravitational_force
    dsimp only
    rw [hdv]
    simp [Vec2.normalize_or_zero]
  refine ⟨hforce, ?_⟩
  rw [hforce, hdv, Vec2.length_zero]
  have hmax : max (0 : ℝ) (1 / 100) = 1 / 100 := max_eq_right (by norm_num)
  rw [hmax]
  simp [unitParticleAt]

theorem Vec2.length_clamp_length_max (a : Vec2) (m : ℝ) (hm : 0 ≤ m) :
    (a.clamp_length_max m).length ≤ m := by
  unfold Vec2.clamp_length_max
  by_cases h : m * m < a.length_sq
  · rw [if_pos h, Vec2.length_smul]
    have hsq : 0 < a.length_sq := lt_of_le_of_lt (mul_self_nonneg m) h
    have hsqrt : 0 < Real.sqrt a.length_sq := Real.sqrt_pos.mpr hsq
    rw [show a.length = Real.sqrt a.length_sq from rfl]
    rw [abs_div, abs_of_nonneg hm, abs_of_pos hsqrt,
      div_mul_cancel₀ m (ne_of_gt hsqrt)]
  · rw [if_neg h]
    push_neg at h
    have hle : a.length ≤ Real.sqrt (m * m) := Real.sqrt_le_sqrt h
    rwa [Real.sqrt_mul_self hm] at hle

/-! ## Claim C6: one Euler integration step -/

/-- C6: one Euler step updates every particle as follows — velocity becomes the
old velocity plus acceleration·dt clamped so its length does not exceed the
configured (nonnegative) max_velocity; position advances by the pre-update
velocity times dt; age increases by dt; and the acceleration accumulator is
reset to zero. -/
theorem C6_euler_integration_step (e : PhysicsEngine) (system : ParticleSystem)
    (i : ℕ) :
    (e.euler_integration system).particles.length = system.particles.length ∧
    (i < system.particles.length →
      ((e.euler_integration system).particles.getD i default).velocity =
        ((system.particles.getD i default).velocity +
          e.config.dt • (system.particles.getD i default).acceleration).clamp_length_max
          e.config.max_velocity ∧
      ((e.euler_integration system).particles.getD i default).position =
        (system.particles.getD i default).position +
          e.config.dt • (system.particles.getD i default).velocity ∧
      ((e.euler_integration system).particles.getD i default).age =
        (system.particles.getD i default).age + e.config.dt ∧
      ((e.euler_integration system).particles.getD i default).acceleration = 0 ∧
      (0 ≤ e.config.max_velocity →
        (((e.euler_integration system).particles.getD i default).velocity).length ≤
          e.config.max_velocity)) := by
  constructor
  · simp [PhysicsEngine.euler_integration]
  · intro h
    have hm : i < (system.particles.map (fun particle =>
        let old_velocity := particle.velocity
        let velocity1 := particle.velocity + e.config.dt • particle.acceleration
        let velocity2 := velocity1.clamp_length_max e.config.max_velocity
        { particle with
          velocity := velocity2,
          position := particle.position + e.config.dt • old_velocity,
          age := particle.age + e.config.dt,
          acceleration := (0 : Vec2) })).length := by
      simpa using h
    have hres : (e.euler_integration system).particles.getD i default =
        (let particle := system.particles.getD i default
         let old_velocity := particle.velocity
         let velocity1 := particle.velocity + e.config.dt • particle.acceleration
         let velocity2 := velocity1.clamp_length_max e.config.max_velocity
         { particle with
           velocity := velocity2,
           position := particle.position + e.config.dt • old_velocity,
           age := particle.age + e.config.dt,
           acceleration := (0 : Vec2) }) := by
      unfold PhysicsEngine.euler_integration
      dsimp only
      rw [List.getD_eq_getElem _ _ hm, List.getElem_map,
        List.getD_eq_getElem _ _ h]
    rw [hres]
    refine ⟨rfl, rfl, rfl, rfl, ?_⟩
    intro hv
    exact Vec2.length_clamp_length_max _ _ hv

/-- Witness for C6 at a concrete engine and one-particle system. -/
theorem C6_witness :
    0 < witnessSystem.particles.length ∧
    ((witnessEngine.euler_integration witnessSystem).particles.getD 0
        default).velocity =
      ((witnessSystem.particles.getD 0 default).velocity +
        witnessEngine.config.dt •
          (witnessSystem.particles.getD 0 default).acceleration).clamp_length_max
        witnessEngine.config.max_velocity ∧
    ((witnessEngine.euler_integration witnessSystem).particles.getD 0
        default).position =
      (witnessSystem.particles.getD 0 default).position +
        witnessEngine.config.dt • (witnessSystem.particles.getD 0 default).velocity ∧
    (0 ≤ witnessEngine.config.max_velocity →
      (((witnessEngine.euler_integration witnessSystem).particles.getD 0
          default).velocity).length ≤ witnessEngine.config.max_velocity) := by
  have h0 : 0 < witnessSystem.particles.length := by
    simp [witnessSystem, ParticleSystem.new]
  have hc := (C6_euler_integration_step witnessEngine witnessSystem 0).2 h0
  exact ⟨h0, hc.1, hc.2.1, hc.2.2.2.2⟩

theorem getD_append_singleton_self {α : Type} (l : List α) (a d : α) :
    (l ++ [a]).getD l.length d = a := by
  induction l with
  | nil => rfl
  | cons x xs ih => simp [ih]

theorem getD_append_left {α : Type} (l l2 : List α) (j : ℕ) (d : α)
    (h : j < l.length) : (l ++ l2).getD j d = l.getD j d := by
  induction l generalizing j with
  | nil => simp at h
  | cons x xs ih =>
      cases j with
      | zero => rfl
      | succ j' => exact ih j' (by simpa using h)

theorem getD_of_length_le {α : Type} (l : List α) (j : ℕ) (d : α)
    (h : l.length ≤ j) : l.getD j d = d := by
  induction l generalizing j with
  | nil => rfl
  | cons x xs ih =>
      cases j with
      | zero => simp at h
      | succ j' => simpa using ih j' (by simpa using h)

theorem Particle.agreesExceptAccel_refl (a : Particle) : a.agreesExceptAccel a :=
  ⟨rfl, rfl, rfl, rfl, rfl, rfl, rfl, rfl⟩

theorem Particle.agreesExceptAccel_trans {a b c : Particle}
    (h1 : a.agreesExceptAccel b) (h2 : b.agreesExceptAccel c) :
    a.agreesExceptAccel c := by
  obtain ⟨x1, x2, x3, x4, x5, x6, x7, x8⟩ := h1
  obtain ⟨y1, y2, y3, y4, y5, y6, y7, y8⟩ := h2
  exact ⟨x1.trans y1, x2.trans y2, x3.trans y3, x4.trans y4, x5.trans y5,
    x6.trans y6, x7.trans y7, x8.trans y8⟩

theorem Particle.apply_force_agrees (p : Particle) (f : Vec2) :
    (p.apply_force f).agreesExceptAccel p := by
  unfold Particle.apply_force
  split
  · exact ⟨rfl, rfl, rfl, rfl, rfl, rfl, rfl, rfl⟩
  · exact Particle.agreesExceptAccel_refl p

theorem foldl_agrees {α : Type} (f : Particle × RandState → α → Particle × RandState)
    (hf : ∀ st a, ((f st a).1).agreesExceptAccel st.1) :
    ∀ (l : List α) (st : Particle × RandState),
      ((l.foldl f st).1).agreesExceptAccel st.1 := by
  intro l
  induction l with
  | nil => intro st; exact Particle.agreesExceptAccel_refl _
  | cons a rest ih =>
      intro st
      rw [List.foldl_cons]
      exact Particle.agreesExceptAccel_trans (ih (f st a)) (hf st a)

theorem ForceCalculator.apply_global_forces_agrees (fc : ForceCalculator)
    (p : Particle) (rs : RandState) :
    ((fc.apply_global_forces p rs).1).agreesExceptAccel p := by
  unfold ForceCalculator.apply_global_forces
  exact foldl_agrees _
    (fun st a => Particle.apply_force_agrees st.1 (fc.calculate_force a st.1 none st.2).1)
    fc.global_forces (p, rs)

theorem ForceCalculator.apply_pair_forces_agrees (fc : ForceCalculator)
    (p other : Particle) (rs : RandState) :
    ((fc.apply_pair_forces p other rs).1).agreesExceptAccel p := by
  unfold ForceCalculator.apply_pair_forces
  exact foldl_agrees _
    (fun st a => Particle.apply_force_agrees st.1
      (fc.calculate_force a st.1 (some other) st.2).1)
    _ (p, rs)

theorem ForceCalculator.pair_phase_agrees (fc : ForceCalculator)
    (copy : List Particle) (i : ℕ) (st : Particle × RandState) :
    ((fc.pair_phase copy i st).1).agreesExceptAccel st.1 := by
  unfold ForceCalculator.pair_phase
  refine foldl_agrees _ (fun st jo => ?_) copy.enum st
  dsimp only
  split
  · exact ForceCalculator.apply_pair_forces_agrees fc st.1 jo.2 st.2
  · exact Particle.agreesExceptAccel_refl _

theorem ForceCalculator.apply_flocking_forces_agrees (fc : ForceCalculator)
    (p : Particle) (i : ℕ) (all_particles : List Particle) (rs : RandState) :
    ((fc.apply_flocking_forces p i all_particles rs).1).agreesExceptAccel p := by
  unfold ForceCalculator.apply_flocking_forces
  refine foldl_agrees _ (fun st a => ?_) fc.global_forces (p, rs)
  cases a <;>
    first
      | exact Particle.agreesExceptAccel_refl _
      | exact Particle.apply_force_agrees _ _

theorem ForceCalculator.apply_one_agrees (fc : ForceCalculator)
    (copy : List Particle) (i : ℕ) (p : Particle) (rs : RandState) :
    ((fc.apply_one copy i p rs).1).agreesExceptAccel p := by
  unfold ForceCalculator.apply_one
  exact Particle.agreesExceptAccel_trans
    (Particle.agreesExceptAccel_trans
      (ForceCalculator.apply_flocking_forces_agrees fc _ i copy _)
      (ForceCalculator.pair_phase_agrees fc copy i _))
    (ForceCalculator.apply_global_forces_agrees fc p rs)

theorem apply_forces_fold_spec (fc : ForceCalculator) (copy : List Particle) :
    ∀ (l : List (ℕ × Particle)) (acc : List Particle) (rs : RandState),
      ((l.foldl (fun (acc : List Particle × RandState) ip =>
          let (p3, rs3) := fc.apply_one copy ip.1 ip.2 acc.2
          (acc.1 ++ [p3], rs3)) (acc, rs)).1.length = acc.length + l.length) ∧
      (∀ j, j < acc.length →
        (l.foldl (fun (acc : List Particle × RandState) ip =>
          let (p3, rs3) := fc.apply_one copy ip.1 ip.2 acc.2
          (acc.1 ++ [p3], rs3)) (acc, rs)).1.getD j default = acc.getD j default) ∧
      (∀ j, j < l.length →
        ((l.foldl (fun (acc : List Particle × RandState) ip =>
          let (p3, rs3) := fc.apply_one copy ip.1 ip.2 acc.2
          (acc.1 ++ [p3], rs3)) (acc, rs)).1.getD (acc.length + j)
            default).agreesExceptAccel (l.getD j (0, default)).2) := by
  intro l
  induction l with
  | nil =>
      intro acc rs
      exact ⟨by simp, fun j hj => rfl, fun j hj => absurd hj (by simp)⟩
  | cons ip rest ih =>
      intro acc rs
      rw [List.foldl_cons]
      dsimp only
      rcases hq : fc.apply_one copy ip.1 ip.2 rs with ⟨p3, rs3⟩
      obtain ⟨ihlen, ihpre, ihsuf⟩ := ih (acc ++ [p3]) rs3
      refine ⟨?_, ?_, ?_⟩
      · rw [ihlen]
        simp only [List.length_append, List.length_cons, List.length_nil]
        omega
      · intro j hj
        rw [ihpre j (by simp only [List.length_append, List.length_cons,
          List.length_nil]; omega)]
        exact getD_append_left acc _ j default hj
      · intro j hj
        cases j with
        | zero =>
            rw [Nat.add_zero]
            have hlt : acc.length < (acc ++ [p3]).length := by simp
            rw [ihpre acc.length hlt, getD_append_singleton_self]
            have hag := fc.apply_one_agrees copy ip.1 ip.2 rs
            rw [hq] at hag
            exact hag
        | succ j' =>
            have hidx : acc.length + (j' + 1) = (acc ++ [p3]).length + j' := by
              simp only [List.length_append, List.length_cons, List.length_nil]
              omega
            rw [hidx]
            exact ihsuf j' (by simpa using hj)

/-! ## Claim C7: force accumulation writes only the acceleration accumulator -/

/-- C7: a force-accumulation pass preserves, for every particle index, the
particle's position, velocity, mass, charge, species id, size, age and lifespan
(it writes only the acceleration accumulator), and it preserves the particle
count.  The other-particle reads come from the snapshot `particles_copy` taken at
the start of `apply_forces`, as its definition shows. -/
theorem C7_apply_forces_only_acceleration (fc : ForceCalculator)
    (system : ParticleSystem) (rs : RandState) (i : ℕ) :
    (fc.apply_forces system rs).1.particles.length = system.particles.length ∧
    ((fc.apply_forces system rs).1.particles.getD i default).agreesExceptAccel
      (system.particles.getD i default) := by
  obtain ⟨hlen, hpre, hsuf⟩ :=
    apply_forces_fold_spec fc system.particles system.particles.enum [] rs
  have hres : (fc.apply_forces system rs).1.particles =
      (system.particles.enum.foldl (fun (acc : List Particle × RandState) ip =>
        let (p3, rs3) := fc.apply_one system.particles ip.1 ip.2 acc.2
        (acc.1 ++ [p3], rs3)) ([], rs)).1 := rfl
  constructor
  · rw [hres, hlen]; simp
  · by_cases h : i < system.particles.length
    · have hsi := hsuf i (by simpa using h)
      rw [List.length_nil, Nat.zero_add] at hsi
      rw [hres]
      have henum : (system.particles.enum.getD i ((0 : ℕ), (default : Particle))).2 =
          system.particles.getD i default := by
        rw [List.getD_eq_getElem _ _ (by simpa using h), List.getElem_enum,
          List.getD_eq_getElem _ _ h]
      rwa [henum] at hsi
    · push_neg at h
      rw [hres]
      have h1 : (system.particles.enum.foldl (fun (acc : List Particle × RandState) ip =>
          let (p3, rs3) := fc.apply_one system.particles ip.1 ip.2 acc.2
          (acc.1 ++ [p3], rs3)) ([], rs)).1.getD i default = default := by
        apply getD_of_length_le
        rw [hlen]; simpa using h
      rw [h1, getD_of_length_le _ _ _ h]
      exact Particle.agreesExceptAccel_refl _

theorem foldl_guard_eq_filter {α β : Type} (p : α → Prop) [DecidablePred p]
    (f : β → α → β) : ∀ (l : List α) (b : β),
    l.foldl (fun b x => if p x then f b x else b) b =
      (l.filter (fun x => p x)).foldl f b := by
  intro l
  induction l with
  | nil => intro b; rfl
  | cons x xs ih =>
      intro b
      by_cases hx : p x
      · rw [List.foldl_cons, if_pos hx, List.filter_cons_of_pos (by simpa using hx),
          List.foldl_cons]
        exact ih (f b x)
      · rw [List.foldl_cons, if_neg hx, List.filter_cons_of_neg (by simpa using hx)]
        exact ih b

theorem enum_eq_range_map {α : Type} [Inhabited α] (l : List α) :
    l.enum = (List.range l.length).map (fun j => (j, l.getD j default)) := by
  apply List.ext_getElem
  · simp
  · intro i h1 h2
    have hi : i < l.length := by simpa using h1
    rw [List.getElem_enum, List.getElem_map, List.getElem_range,
      List.getD_eq_getElem _ _ hi]

/-! ## Claim C1: the pair loop ignores the spatial index -/

/-- C1 (amended): during force accumulation the pair force laws for particle `i`
are evaluated against exactly the indices `pair_partners n i` — every other
particle of the snapshot, unconditionally.  `apply_forces` takes no spatial
index; the index the application layer builds (lib.rs:116–118) is never consulted
by the force pass (forces.rs:131–145). -/
theorem C1_pair_loop_unrestricted (fc : ForceCalculator)
    (particles_copy : List Particle) (i : ℕ) (st : Particle × RandState) :
    fc.pair_phase particles_copy i st =
      (ForceCalculator.pair_partners particles_copy.length i).foldl
        (fun st j => fc.apply_pair_forces st.1 (particles_copy.getD j default) st.2)
        st := by
  unfold ForceCalculator.pair_phase ForceCalculator.pair_partners
  rw [enum_eq_range_map, List.foldl_map]
  exact foldl_guard_eq_filter (fun j => i ≠ j)
    (fun st j => fc.apply_pair_forces st.1 (particles_copy.getD j default) st.2)
    (List.range particles_copy.length) st

/-- C1 counterexample: with a spatial grid present (cell size 10, bounds ±50,
rebuilt from particles at (0,0) and (40,0)) and a bounded force law of cutoff 5,
the claim's restriction would leave particle 0 with no pair-evaluation partners
(the radius-5 query at (0,0) returns only particle 0 itself), yet the source's
pair loop evaluates particle 0 against partner 1 — the loop is full O(n²) and
never consults the index. -/
theorem C1_counterexample :
    ForceCalculator.pair_partners 2 0 = [1] ∧
    spec_pair_candidates
      ((SpatialGrid.new 10 (⟨-50, -50⟩, ⟨50, 50⟩)).update [⟨0, 0⟩, ⟨40, 0⟩]) 0 5
      = [] := by
  constructor
  · decide
  · have h1 : intRangeIncl 4 5 = [4, 5] := by decide
    norm_num [spec_pair_candidates, SpatialGrid.new, SpatialGrid.update,
      SpatialGrid.position_to_cell, gridUpsert, gridFind, List.enum,
      SpatialGrid.query_neighbors, Vec2Q.sub, Vec2Q.add, Vec2Q.splat,
      Vec2Q.distSq, h1]

/-! ## Claim C4: the concrete grid-query scenario -/

/-- C4 counterexample: in the spec's scenario (grid of cell size 10 over
[(-50,-50),(50,50)], particles at (5,5) and (15,15)) the radius-20 query at the
origin does NOT return both indices: the particle at (15,15) lies at distance
√450 ≈ 21.2 > 20 and is excluded by the exact-distance filter. -/
theorem C4_counterexample :
    1 ∉ ((SpatialGrid.new 10 (⟨-50, -50⟩, ⟨50, 50⟩)).update
      [⟨5, 5⟩, ⟨15, 15⟩]).query_neighbors ⟨0, 0⟩ 20 := by
  have h : ((SpatialGrid.new 10 (⟨-50, -50⟩, ⟨50, 50⟩)).update
      [⟨5, 5⟩, ⟨15, 15⟩]).query_neighbors ⟨0, 0⟩ 20 = [0] := by
    have h1 : intRangeIncl 3 7 = [3, 4, 5, 6, 7] := by decide
    norm_num [SpatialGrid.new, SpatialGrid.update, SpatialGrid.position_to_cell,
      gridUpsert, gridFind, List.enum, SpatialGrid.query_neighbors,
      Vec2Q.sub, Vec2Q.add, Vec2Q.splat, Vec2Q.distSq, h1]
  rw [h]
  decide

/-- C4 (amended): in the spec's scenario the radius-20 query at the origin
returns exactly the index of the particle at (5,5) — the particle at (15,15) is
at distance √450 > 20 — and the radius-6 query returns neither index. -/
theorem C4_grid_query_scenario :
    ((SpatialGrid.new 10 (⟨-50, -50⟩, ⟨50, 50⟩)).update
      [⟨5, 5⟩, ⟨15, 15⟩]).query_neighbors ⟨0, 0⟩ 20 = [0] ∧
    ((SpatialGrid.new 10 (⟨-50, -50⟩, ⟨50, 50⟩)).update
      [⟨5, 5⟩, ⟨15, 15⟩]).query_neighbors ⟨0, 0⟩ 6 = [] := by
  constructor
  · have h1 : intRangeIncl 3 7 = [3, 4, 5, 6, 7] := by decide
    norm_num [SpatialGrid.new, SpatialGrid.update, SpatialGrid.position_to_cell,
      gridUpsert, gridFind, List.enum, SpatialGrid.query_neighbors,
      Vec2Q.sub, Vec2Q.add, Vec2Q.splat, Vec2Q.distSq, h1]
  · have h1 : intRangeIncl 4 5 = [4, 5] := by decide
    norm_num [SpatialGrid.new, SpatialGrid.update, SpatialGrid.position_to_cell,
      gridUpsert, gridFind, List.enum, SpatialGrid.query_neighbors,
      Vec2Q.sub, Vec2Q.add, Vec2Q.splat, Vec2Q.distSq, h1]

/-! ## Grid rebuild lemmas for claim C3 -/

theorem cellsHolding_of_not_mem (gl : List ((ℤ × ℤ) × List ℕ)) (i : ℕ)
    (h : ∀ e ∈ gl, i ∉ e.2) : cellsHolding gl i = [] := by
  induction gl with
  | nil => rfl
  | cons e rest ih =>
      have he : i ∉ e.2 := h e (by simp)
      unfold cellsHolding
      rw [List.filter_cons_of_neg (by simpa using he)]
      exact ih (fun e' he' => h e' (List.mem_cons_of_mem _ he'))

theorem cellsHolding_upsert_self (gl : List ((ℤ × ℤ) × List ℕ)) (c : ℤ × ℤ) (i : ℕ)
    (h : ∀ e ∈ gl, i ∉ e.2) : cellsHolding (gridUpsert gl c i) i = [c] := by
  induction gl with
  | nil => simp [gridUpsert, cellsHolding]
  | cons e rest ih =>
      obtain ⟨k, v⟩ := e
      have hv : i ∉ v := by simpa using h (k, v) (by simp)
      by_cases hk : k = c
      · unfold gridUpsert
        rw [if_pos hk]
        unfold cellsHolding
        rw [List.filter_cons_of_pos (by simp)]
        have hrest : cellsHolding rest i = [] :=
          cellsHolding_of_not_mem rest i (fun e' he' => h e' (List.mem_cons_of_mem _ he'))
        unfold cellsHolding at hrest
        simp [hrest, hk]
      · unfold gridUpsert
        rw [if_neg hk]
        unfold cellsHolding
        rw [List.filter_cons_of_neg (by simpa using hv)]
        exact ih (fun e' he' => h e' (List.mem_cons_of_mem _ he'))

theorem cellsHolding_upsert_other (gl : List ((ℤ × ℤ) × List ℕ)) (c : ℤ × ℤ)
    (i j : ℕ) (hne : j ≠ i) : cellsHolding (gridUpsert gl c i) j = cellsHolding gl j := by
  induction gl with
  | nil =>
      unfold gridUpsert cellsHolding
      rw [List.filter_cons_of_neg (by simpa using hne), List.filter_nil]
  | cons e rest ih =>
      obtain ⟨k, v⟩ := e
      by_cases hk : k = c
      · unfold gridUpsert
        rw [if_pos hk]
        unfold cellsHolding
        by_cases hm : j ∈ v
        · rw [List.filter_cons_of_pos (by simp [hm]),
            List.filter_cons_of_pos (by simpa using hm)]
          simp only [List.map_cons]
        · rw [List.filter_cons_of_neg (by simp [hm, hne]),
            List.filter_cons_of_neg (by simpa using hm)]
      · unfold gridUpsert
        rw [if_neg hk]
        unfold cellsHolding
        by_cases hm : j ∈ v
        · rw [List.filter_cons_of_pos (by simpa using hm),
            List.filter_cons_of_pos (by simpa using hm)]
          simp only [List.map_cons]
          exact congrArg _ ih
        · rw [List.filter_cons_of_neg (by simpa using hm),
            List.filter_cons_of_neg (by simpa using hm)]
          exact ih

theorem allBelow_upsert (gl : List ((ℤ × ℤ) × List ℕ)) (c : ℤ × ℤ) (k : ℕ)
    (h : allBelow gl k) : allBelow (gridUpsert gl c k) (k + 1) := by
  induction gl with
  | nil =>
      intro e he j hj
      simp only [gridUpsert, List.mem_singleton] at he
      subst he
      simp only [List.mem_singleton] at hj
      omega
  | cons e0 rest ih =>
      obtain ⟨k0, v⟩ := e0
      by_cases hk : k0 = c
      · unfold gridUpsert
        rw [if_pos hk]
        intro e he j hj
        rcases List.mem_cons.mp he with he | he
        · subst he
          simp only [List.mem_append, List.mem_singleton] at hj
          rcases hj with hj | hj
          · have := h (k0, v) (by simp) j hj; omega
          · omega
        · have := h e (List.mem_cons_of_mem _ he) j hj; omega
      · unfold gridUpsert
        rw [if_neg hk]
        intro e he j hj
        rcases List.mem_cons.mp he with he | he
        · subst he
          have := h (k0, v) (by simp) j hj; omega
        · exact ih (fun e' he' => h e' (List.mem_cons_of_mem _ he')) e he j hj

theorem not_mem_of_allBelow (gl : List ((ℤ × ℤ) × List ℕ)) (n : ℕ)
    (h : allBelow gl n) : ∀ e ∈ gl, n ∉ e.2 :=
  fun e he hin => lt_irrefl n (h e he n hin)

theorem grid_fold_spec (g : SpatialGrid) (positions : List Vec2Q) : ∀ k : ℕ,
    allBelow ((List.range k).foldl
      (fun acc j => gridUpsert acc (g.position_to_cell (positions.getD j default)) j)
      []) k ∧
    (∀ i, i < k →
      cellsHolding ((List.range k).foldl
        (fun acc j => gridUpsert acc (g.position_to_cell (positions.getD j default)) j)
        []) i = [g.position_to_cell (positions.getD i default)]) := by
  intro k
  induction k with
  | zero =>
      exact ⟨fun e he => by simp at he, fun i hi => absurd hi (by omega)⟩
  | succ k ih =>
      obtain ⟨ihb, ihc⟩ := ih
      rw [List.range_succ, List.foldl_append, List.foldl_cons, List.foldl_nil]
      refine ⟨allBelow_upsert _ _ _ ihb, ?_⟩
      intro i hi
      by_cases hik : i = k
      · subst hik
        exact cellsHolding_upsert_self _ _ _ (not_mem_of_allBelow _ _ ihb)
      · rw [cellsHolding_upsert_other _ _ _ _ hik]
        exact ihc i (by omega)

theorem floor_cell_region (q ox cs : ℚ) (hcs : 0 < cs) :
    ox + (⌊(q - ox) / cs⌋ : ℚ) * cs ≤ q ∧
    q < ox + ((⌊(q - ox) / cs⌋ : ℚ) + 1) * cs := by
  have h1 : (⌊(q - ox) / cs⌋ : ℚ) ≤ (q - ox) / cs := Int.floor_le _
  have h2 : (q - ox) / cs < ⌊(q - ox) / cs⌋ + 1 := Int.lt_floor_add_one _
  constructor
  · have := (le_div_iff₀ hcs).mp h1
    linarith
  · have := (div_lt_iff₀ hcs).mp h2
    linarith

/-! ## Quadtree insertion lemmas for claim C3 -/

namespace QuadTree

@[simp] theorem boundsMin_mk (a b : Vec2Q) (parts : List ℕ)
    (ch : Option (QuadTree × QuadTree × QuadTree × QuadTree)) (mp md dep : ℕ) :
    (QuadTree.mk a b parts ch mp md dep).boundsMin = a := rfl

@[simp] theorem boundsMax_mk (a b : Vec2Q) (parts : List ℕ)
    (ch : Option (QuadTree × QuadTree × QuadTree × QuadTree)) (mp md dep : ℕ) :
    (QuadTree.mk a b parts ch mp md dep).boundsMax = b := rfl

@[simp] theorem particles_mk (a b : Vec2Q) (parts : List ℕ)
    (ch : Option (QuadTree × QuadTree × QuadTree × QuadTree)) (mp md dep : ℕ) :
    (QuadTree.mk a b parts ch mp md dep).particles = parts := rfl

@[simp] theorem children_mk (a b : Vec2Q) (parts : List ℕ)
    (ch : Option (QuadTree × QuadTree × QuadTree × QuadTree)) (mp md dep : ℕ) :
    (QuadTree.mk a b parts ch mp md dep).children = ch := rfl

@[simp] theorem max_depth_mk (a b : Vec2Q) (parts : List ℕ)
    (ch : Option (QuadTree × QuadTree × QuadTree × QuadTree)) (mp md dep : ℕ) :
    (QuadTree.mk a b parts ch mp md dep).max_depth = md := rfl

theorem boundsMin_pushIdx (t : QuadTree) (i : ℕ) :
    (t.pushIdx i).boundsMin = t.boundsMin := by cases t; rfl

theorem boundsMax_pushIdx (t : QuadTree) (i : ℕ) :
    (t.pushIdx i).boundsMax = t.boundsMax := by cases t; rfl

theorem max_depth_pushIdx (t : QuadTree) (i : ℕ) :
    (t.pushIdx i).max_depth = t.max_depth := by cases t; rfl

theorem boundsMin_subdivide (t : QuadTree) : t.subdivide.boundsMin = t.boundsMin := by
  cases t; rfl

theorem boundsMax_subdivide (t : QuadTree) : t.subdivide.boundsMax = t.boundsMax := by
  cases t; rfl

theorem max_depth_subdivide (t : QuadTree) : t.subdivide.max_depth = t.max_depth := by
  cases t; rfl

theorem clear_boundsMin (t : QuadTree) : t.clear.boundsMin = t.boundsMin := by
  cases t; rfl

theorem clear_boundsMax (t : QuadTree) : t.clear.boundsMax = t.boundsMax := by
  cases t; rfl

theorem clear_max_depth (t : QuadTree) : t.clear.max_depth = t.max_depth := by
  cases t; rfl

theorem countIdx_clear (t : QuadTree) (i : ℕ) : t.clear.countIdx i = 0 := by
  cases t; simp [clear, countIdx]

theorem goodFor_clear (t : QuadTree) (i : ℕ) (p : Vec2Q) : t.clear.goodFor i p := by
  cases t
  exact ⟨fun h => absurd h (List.not_mem_nil _), trivial⟩

theorem contains_congr {t s : QuadTree} (h1 : t.boundsMin = s.boundsMin)
    (h2 : t.boundsMax = s.boundsMax) (p : Vec2Q) :
    t.contains_point p ↔ s.contains_point p := by
  unfold contains_point
  rw [h1, h2]

theorem contains_pushIdx (t : QuadTree) (i : ℕ) (p : Vec2Q) :
    (t.pushIdx i).contains_point p ↔ t.contains_point p :=
  contains_congr (boundsMin_pushIdx t i) (boundsMax_pushIdx t i) p

theorem countIdx_mk (a b : Vec2Q) (parts : List ℕ)
    (ch : Option (QuadTree × QuadTree × QuadTree × QuadTree)) (mp md dep i : ℕ) :
    (QuadTree.mk a b parts ch mp md dep).countIdx i =
      parts.count i + (match ch with
        | none => 0
        | some (c0, c1, c2, c3) =>
            c0.countIdx i + c1.countIdx i + c2.countIdx i + c3.countIdx i) := by
  cases ch with
  | none => rfl
  | some cs => obtain ⟨c0, c1, c2, c3⟩ := cs; rfl

theorem goodFor_mk (a b : Vec2Q) (parts : List ℕ)
    (ch : Option (QuadTree × QuadTree × QuadTree × QuadTree)) (mp md dep i : ℕ)
    (p : Vec2Q) :
    (QuadTree.mk a b parts ch mp md dep).goodFor i p ↔
      ((i ∈ parts → (QuadTree.mk a b parts ch mp md dep).contains_point p) ∧
        (match ch with
          | none => True
          | some (c0, c1, c2, c3) =>
              c0.goodFor i p ∧ c1.goodFor i p ∧ c2.goodFor i p ∧ c3.goodFor i p)) := by
  cases ch with
  | none => exact Iff.rfl
  | some cs => obtain ⟨c0, c1, c2, c3⟩ := cs; exact Iff.rfl

theorem pushIdx_mk (a b : Vec2Q) (parts : List ℕ)
    (ch : Option (QuadTree × QuadTree × QuadTree × QuadTree)) (mp md dep i : ℕ) :
    (QuadTree.mk a b parts ch mp md dep).pushIdx i =
      QuadTree.mk a b (parts ++ [i]) ch mp md dep := rfl

theorem count_singleton_ite (j i : ℕ) : List.count j [i] = if j = i then 1 else 0 := by
  by_cases h : j = i
  · subst h; simp
  · simp [h]

theorem countIdx_pushIdx (t : QuadTree) (j i : ℕ) :
    (t.pushIdx i).countIdx j = t.countIdx j + (if j = i then 1 else 0) := by
  cases t with
  | mk a b parts ch mp md dep =>
      rw [pushIdx_mk, countIdx_mk, countIdx_mk, List.count_append,
        count_singleton_ite]
      omega

theorem countIdx_subdivide (t : QuadTree) (hch : t.children = none) (j : ℕ) :
    t.subdivide.countIdx j = t.countIdx j := by
  cases t with
  | mk a b parts ch mp md dep =>
      simp only [children_mk] at hch
      subst hch
      simp [subdivide, countIdx]

theorem goodFor_pushIdx (t : QuadTree) (i j : ℕ) (p : Vec2Q)
    (h : t.goodFor j p) (hc : j = i → t.contains_point p) :
    (t.pushIdx i).goodFor j p := by
  cases t with
  | mk a b parts ch mp md dep =>
      rw [goodFor_mk] at h
      obtain ⟨h1, h2⟩ := h
      rw [pushIdx_mk, goodFor_mk]
      refine ⟨?_, h2⟩
      intro hmem
      rcases List.mem_append.mp hmem with hm | hm
      · exact h1 hm
      · simp only [List.mem_singleton] at hm
        exact hc hm

theorem goodFor_leaf (a b : Vec2Q) (mp md dep j : ℕ) (p : Vec2Q) :
    (QuadTree.mk a b [] none mp md dep).goodFor j p :=
  ⟨fun h => absurd h (List.not_mem_nil _), trivial⟩

theorem goodFor_subdivide (t : QuadTree) (j : ℕ) (p : Vec2Q)
    (h : t.goodFor j p) : t.subdivide.goodFor j p := by
  cases t with
  | mk a b parts ch mp md dep =>
      rw [goodFor_mk] at h
      exact ⟨h.1, goodFor_leaf _ _ _ _ _ _ _, goodFor_leaf _ _ _ _ _ _ _,
        goodFor_leaf _ _ _ _ _ _ _, goodFor_leaf _ _ _ _ _ _ _⟩

end QuadTree

namespace QuadTree

theorem insert_not_contains (fuel : ℕ) (t : QuadTree) (idx : ℕ) (pos : Vec2Q)
    (h : ¬ t.contains_point pos) : t.insert fuel idx pos = (t, false) := by
  unfold insert
  rw [if_pos h]

theorem insert_snd_true (fuel : ℕ) (t : QuadTree) (idx : ℕ) (pos : Vec2Q)
    (h : t.contains_point pos) : (t.insert fuel idx pos).2 = true := by
  unfold insert
  rw [if_neg (not_not_intro h)]
  split
  · rfl
  · cases fuel with
    | zero => rfl
    | succ n =>
        dsimp only
        repeat' split
        all_goals rfl

theorem countIdx_children_some (t c0 c1 c2 c3 : QuadTree)
    (h : t.children = some (c0, c1, c2, c3)) (j : ℕ) :
    t.countIdx j = t.particles.count j +
      (c0.countIdx j + c1.countIdx j + c2.countIdx j + c3.countIdx j) := by
  cases t with
  | mk a b parts ch mp md dep =>
      simp only [children_mk] at h
      subst h
      rw [countIdx_mk]
      rfl

theorem goodFor_children_some (t c0 c1 c2 c3 : QuadTree)
    (h : t.children = some (c0, c1, c2, c3)) (j : ℕ) (q : Vec2Q) :
    t.goodFor j q ↔ ((j ∈ t.particles → t.contains_point q) ∧
      (c0.goodFor j q ∧ c1.goodFor j q ∧ c2.goodFor j q ∧ c3.goodFor j q)) := by
  cases t with
  | mk a b parts ch mp md dep =>
      simp only [children_mk] at h
      subst h
      rw [goodFor_mk]
      rfl

end QuadTree

namespace QuadTree

theorem particles_subdivide (t : QuadTree) : t.subdivide.particles = t.particles := by
  cases t; rfl

theorem max_particles_subdivide (t : QuadTree) :
    t.subdivide.max_particles = t.max_particles := by cases t; rfl

theorem depth_subdivide (t : QuadTree) : t.subdivide.depth = t.depth := by
  cases t; rfl

theorem contains_subdivide (t : QuadTree) (p : Vec2Q) :
    t.subdivide.contains_point p ↔ t.contains_point p :=
  contains_congr (boundsMin_subdivide t) (boundsMax_subdivide t) p

theorem insert_eq_push_of_room (fuel : ℕ) (t : QuadTree) (idx : ℕ) (pos : Vec2Q)
    (h1 : t.contains_point pos)
    (h2 : t.particles.length < t.max_particles ∨ t.max_depth ≤ t.depth) :
    t.insert fuel idx pos = (t.pushIdx idx, true) := by
  unfold insert
  rw [if_neg (not_not_intro h1), if_pos h2]

theorem insert_zero_eq_push (t : QuadTree) (idx : ℕ) (pos : Vec2Q)
    (h1 : t.contains_point pos) :
    t.insert 0 idx pos = (t.pushIdx idx, true) := by
  unfold insert
  rw [if_neg (not_not_intro h1)]
  split <;> rfl

theorem insert_succ_some (n : ℕ) (t c0 c1 c2 c3 : QuadTree) (idx : ℕ) (pos : Vec2Q)
    (h1 : t.contains_point pos)
    (h2 : ¬ (t.particles.length < t.max_particles ∨ t.max_depth ≤ t.depth))
    (hc : t.children = some (c0, c1, c2, c3)) :
    t.insert (n + 1) idx pos =
      (if (insert n c0 idx pos).2 then
        (QuadTree.mk t.boundsMin t.boundsMax t.particles
          (some ((insert n c0 idx pos).1, c1, c2, c3))
          t.max_particles t.max_depth t.depth, true)
      else if (insert n c1 idx pos).2 then
        (QuadTree.mk t.boundsMin t.boundsMax t.particles
          (some (c0, (insert n c1 idx pos).1, c2, c3))
          t.max_particles t.max_depth t.depth, true)
      else if (insert n c2 idx pos).2 then
        (QuadTree.mk t.boundsMin t.boundsMax t.particles
          (some (c0, c1, (insert n c2 idx pos).1, c3))
          t.max_particles t.max_depth t.depth, true)
      else if (insert n c3 idx pos).2 then
        (QuadTree.mk t.boundsMin t.boundsMax t.particles
          (some (c0, c1, c2, (insert n c3 idx pos).1))
          t.max_particles t.max_depth t.depth, true)
      else (t.pushIdx idx, true)) := by
  conv_lhs => unfold insert
  rw [if_neg (not_not_intro h1), if_neg h2]
  dsimp only
  rw [hc]
  dsimp only
  rw [hc]

theorem insert_succ_none (n : ℕ) (t : QuadTree) (idx : ℕ) (pos : Vec2Q)
    (h1 : t.contains_point pos)
    (h2 : ¬ (t.particles.length < t.max_particles ∨ t.max_depth ≤ t.depth))
    (hc : t.children = none) :
    t.insert (n + 1) idx pos = t.subdivide.insert (n + 1) idx pos := by
  cases t with
  | mk a b parts ch mp md dep =>
      simp only [children_mk] at hc
      subst hc
      have h1' : ((QuadTree.mk a b parts none mp md dep).subdivide).contains_point pos :=
        (contains_subdivide _ pos).mpr h1
      have h2' : ¬ ((QuadTree.mk a b parts none mp md dep).subdivide.particles.length <
          (QuadTree.mk a b parts none mp md dep).subdivide.max_particles ∨
          (QuadTree.mk a b parts none mp md dep).subdivide.max_depth ≤
          (QuadTree.mk a b parts none mp md dep).subdivide.depth) := by
        rw [particles_subdivide, max_particles_subdivide, max_depth_subdivide,
          depth_subdivide]
        exact h2
      conv_lhs => unfold insert
      conv_rhs => unfold insert
      rw [if_neg (not_not_intro h1), if_neg h2]
      rw [if_neg (not_not_intro h1'), if_neg h2']
      rfl

end QuadTree

namespace QuadTree

theorem subdivide_children (t : QuadTree) : ∃ l0 l1 l2 l3 : QuadTree,
    t.subdivide.children = some (l0, l1, l2, l3) := by
  cases t with
  | mk a b parts ch mp md dep => exact ⟨_, _, _, _, rfl⟩

theorem countIdx_mk_some (a b : Vec2Q) (parts : List ℕ) (c0 c1 c2 c3 : QuadTree)
    (mp md dep i : ℕ) :
    (QuadTree.mk a b parts (some (c0, c1, c2, c3)) mp md dep).countIdx i =
      parts.count i +
        (c0.countIdx i + c1.countIdx i + c2.countIdx i + c3.countIdx i) := rfl

theorem push_bundle (t : QuadTree) (idx : ℕ) (pos : Vec2Q)
    (h1 : t.contains_point pos) :
    (((t.pushIdx idx, true).1.boundsMin = t.boundsMin ∧
      (t.pushIdx idx, true).1.boundsMax = t.boundsMax ∧
      (t.pushIdx idx, true).1.max_depth = t.max_depth) ∧
     (∀ j : ℕ, (t.pushIdx idx, true).1.countIdx j =
       t.countIdx j +
         (if ((t.pushIdx idx, true) : QuadTree × Bool).2 = true ∧ j = idx
          then 1 else 0)) ∧
     (∀ (j : ℕ) (q : Vec2Q), (j ≠ idx ∨ q = pos) → t.goodFor j q →
       (t.pushIdx idx, true).1.goodFor j q)) := by
  refine ⟨⟨boundsMin_pushIdx t idx, boundsMax_pushIdx t idx,
    max_depth_pushIdx t idx⟩, ?_, ?_⟩
  · intro j
    dsimp only
    rw [countIdx_pushIdx]
    by_cases hj : j = idx <;> simp [hj]
  · intro j q hj hg
    dsimp only
    refine goodFor_pushIdx t idx j q hg (fun hji => ?_)
    rcases hj with hj | hj
    · exact absurd hji hj
    · rw [hj]; exact h1

theorem cascade_spec (n idx : ℕ) (pos : Vec2Q)
    (ih : ∀ s : QuadTree,
      ((s.insert n idx pos).1.boundsMin = s.boundsMin ∧
       (s.insert n idx pos).1.boundsMax = s.boundsMax ∧
       (s.insert n idx pos).1.max_depth = s.max_depth) ∧
      (∀ j : ℕ, (s.insert n idx pos).1.countIdx j =
        s.countIdx j + (if (s.insert n idx pos).2 = true ∧ j = idx then 1 else 0)) ∧
      (∀ (j : ℕ) (q : Vec2Q), (j ≠ idx ∨ q = pos) → s.goodFor j q →
        (s.insert n idx pos).1.goodFor j q))
    (t c0 c1 c2 c3 : QuadTree)
    (h1 : t.contains_point pos)
    (h2 : ¬ (t.particles.length < t.max_particles ∨ t.max_depth ≤ t.depth))
    (hc : t.children = some (c0, c1, c2, c3)) :
    ((t.insert (n + 1) idx pos).1.boundsMin = t.boundsMin ∧
     (t.insert (n + 1) idx pos).1.boundsMax = t.boundsMax ∧
     (t.insert (n + 1) idx pos).1.max_depth = t.max_depth) ∧
    (∀ j : ℕ, (t.insert (n + 1) idx pos).1.countIdx j =
      t.countIdx j + (if (t.insert (n + 1) idx pos).2 = true ∧ j = idx then 1 else 0)) ∧
    (∀ (j : ℕ) (q : Vec2Q), (j ≠ idx ∨ q = pos) → t.goodFor j q →
      (t.insert (n + 1) idx pos).1.goodFor j q) := by
  rw [insert_succ_some n t c0 c1 c2 c3 idx pos h1 h2 hc]
  by_cases hr0 : (insert n c0 idx pos).2 = true
  · rw [if_pos hr0]
    refine ⟨⟨rfl, rfl, rfl⟩, ?_, ?_⟩
    · intro j
      obtain ⟨_, ihc0, _⟩ := ih c0
      dsimp only
      rw [countIdx_mk_some, countIdx_children_some t c0 c1 c2 c3 hc j, ihc0 j, hr0]
      by_cases hj : j = idx <;> simp [hj]
      all_goals omega
    · intro j q hj hg
      obtain ⟨_, _, ihg0⟩ := ih c0
      obtain ⟨hgp, hg0, hg1, hg2, hg3⟩ :=
        (goodFor_children_some t c0 c1 c2 c3 hc j q).mp hg
      dsimp only
      exact (goodFor_mk _ _ _ _ _ _ _ _ _).mpr
        ⟨fun hm => hgp hm, ihg0 j q hj hg0, hg1, hg2, hg3⟩
  · rw [if_neg hr0]
    by_cases hr1 : (insert n c1 idx pos).2 = true
    · rw [if_pos hr1]
      refine ⟨⟨rfl, rfl, rfl⟩, ?_, ?_⟩
      · intro j
        obtain ⟨_, ihc1, _⟩ := ih c1
        dsimp only
        rw [countIdx_mk_some, countIdx_children_some t c0 c1 c2 c3 hc j, ihc1 j, hr1]
        by_cases hj : j = idx <;> simp [hj]
        all_goals omega
      · intro j q hj hg
        obtain ⟨_, _, ihg1⟩ := ih c1
        obtain ⟨hgp, hg0, hg1, hg2, hg3⟩ :=
          (goodFor_children_some t c0 c1 c2 c3 hc j q).mp hg
        dsimp only
        exact (goodFor_mk _ _ _ _ _ _ _ _ _).mpr
          ⟨fun hm => hgp hm, hg0, ihg1 j q hj hg1, hg2, hg3⟩
    · rw [if_neg hr1]
      by_cases hr2 : (insert n c2 idx pos).2 = true
      · rw [if_pos hr2]
        refine ⟨⟨rfl, rfl, rfl⟩, ?_, ?_⟩
        · intro j
          obtain ⟨_, ihc2, _⟩ := ih c2
          dsimp only
          rw [countIdx_mk_some, countIdx_children_some t c0 c1 c2 c3 hc j, ihc2 j, hr2]
          by_cases hj : j = idx <;> simp [hj]
          all_goals omega
        · intro j q hj hg
          obtain ⟨_, _, ihg2⟩ := ih c2
          obtain ⟨hgp, hg0, hg1, hg2, hg3⟩ :=
            (goodFor_children_some t c0 c1 c2 c3 hc j q).mp hg
          dsimp only
          exact (goodFor_mk _ _ _ _ _ _ _ _ _).mpr
            ⟨fun hm => hgp hm, hg0, hg1, ihg2 j q hj hg2, hg3⟩
      · rw [if_neg hr2]
        by_cases hr3 : (insert n c3 idx pos).2 = true
        · rw [if_pos hr3]
          refine ⟨⟨rfl, rfl, rfl⟩, ?_, ?_⟩
          · intro j
            obtain ⟨_, ihc3, _⟩ := ih c3
            dsimp only
            rw [countIdx_mk_some, countIdx_children_some t c0 c1 c2 c3 hc j, ihc3 j, hr3]
            by_cases hj : j = idx <;> simp [hj]
            all_goals omega
          · intro j q hj hg
            obtain ⟨_, _, ihg3⟩ := ih c3
            obtain ⟨hgp, hg0, hg1, hg2, hg3⟩ :=
              (goodFor_children_some t c0 c1 c2 c3 hc j q).mp hg
            dsimp only
            exact (goodFor_mk _ _ _ _ _ _ _ _ _).mpr
              ⟨fun hm => hgp hm, hg0, hg1, hg2, ihg3 j q hj hg3⟩
        · rw [if_neg hr3]
          exact push_bundle t idx pos h1

theorem insert_spec (idx : ℕ) (pos : Vec2Q) : ∀ (fuel : ℕ) (t : QuadTree),
    ((t.insert fuel idx pos).1.boundsMin = t.boundsMin ∧
     (t.insert fuel idx pos).1.boundsMax = t.boundsMax ∧
     (t.insert fuel idx pos).1.max_depth = t.max_depth) ∧
    (∀ j : ℕ, (t.insert fuel idx pos).1.countIdx j =
      t.countIdx j + (if (t.insert fuel idx pos).2 = true ∧ j = idx then 1 else 0)) ∧
    (∀ (j : ℕ) (q : Vec2Q), (j ≠ idx ∨ q = pos) → t.goodFor j q →
      (t.insert fuel idx pos).1.goodFor j q) := by
  intro fuel
  induction fuel with
  | zero =>
      intro t
      by_cases h1 : t.contains_point pos
      · rw [insert_zero_eq_push t idx pos h1]
        exact push_bundle t idx pos h1
      · rw [insert_not_contains 0 t idx pos h1]
        exact ⟨⟨rfl, rfl, rfl⟩, fun j => by simp, fun j q hj hg => hg⟩
  | succ n ih =>
      intro t
      by_cases h1 : t.contains_point pos
      · by_cases h2 : t.particles.length < t.max_particles ∨ t.max_depth ≤ t.depth
        · rw [insert_eq_push_of_room (n + 1) t idx pos h1 h2]
          exact push_bundle t idx pos h1
        · cases hc : t.children with
          | some cs =>
              obtain ⟨c0, c1, c2, c3⟩ := cs
              exact cascade_spec n idx pos ih t c0 c1 c2 c3 h1 h2 hc
          | none =>
              rw [insert_succ_none n t idx pos h1 h2 hc]
              have h1' : t.subdivide.contains_point pos :=
                (contains_subdivide t pos).mpr h1
              have h2' : ¬ (t.subdivide.particles.length < t.subdivide.max_particles ∨
                  t.subdivide.max_depth ≤ t.subdivide.depth) := by
                rw [particles_subdivide, max_particles_subdivide,
                  max_depth_subdivide, depth_subdivide]
                exact h2
              obtain ⟨l0, l1, l2, l3, hcs⟩ := subdivide_children t
              obtain ⟨⟨hb1, hb2, hb3⟩, hcnt, hgd⟩ :=
                cascade_spec n idx pos ih t.subdivide l0 l1 l2 l3 h1' h2' hcs
              refine ⟨⟨?_, ?_, ?_⟩, ?_, ?_⟩
              · rw [hb1, boundsMin_subdivide]
              · rw [hb2, boundsMax_subdivide]
              · rw [hb3, max_depth_subdivide]
              · intro j
                rw [hcnt j, countIdx_subdivide t hc j]
              · intro j q hj hg
                exact hgd j q hj (goodFor_subdivide t j q hg)
      · rw [insert_not_contains (n + 1) t idx pos h1]
        exact ⟨⟨rfl, rfl, rfl⟩, fun j => by simp, fun j q hj hg => hg⟩

end QuadTree

theorem quadFold_succ (root : QuadTree) (positions : List Vec2Q) (k : ℕ) :
    quadFold root positions (k + 1) =
      ((quadFold root positions k).insert ((quadFold root positions k).max_depth + 1)
        k (positions.getD k default)).1 := by
  unfold quadFold
  rw [List.range_succ, List.foldl_append, List.foldl_cons, List.foldl_nil]

theorem quadtree_fold_spec (root : QuadTree) (positions : List Vec2Q)
    (hroot_c : ∀ j, root.countIdx j = 0)
    (hroot_g : ∀ j q, root.goodFor j q) : ∀ k : ℕ,
    ((quadFold root positions k).boundsMin = root.boundsMin ∧
     (quadFold root positions k).boundsMax = root.boundsMax) ∧
    (∀ i, i < k → (quadFold root positions k).countIdx i =
      if root.contains_point (positions.getD i default) then 1 else 0) ∧
    (∀ i, k ≤ i → (quadFold root positions k).countIdx i = 0) ∧
    (∀ i, (quadFold root positions k).goodFor i (positions.getD i default)) := by
  intro k
  induction k with
  | zero =>
      exact ⟨⟨rfl, rfl⟩, fun i hi => absurd hi (by omega),
        fun i _ => hroot_c i, fun i => hroot_g i _⟩
  | succ k ih =>
      obtain ⟨⟨hb1, hb2⟩, hlt, hge, hgood⟩ := ih
      obtain ⟨⟨ib1, ib2, _⟩, icnt, igd⟩ :=
        QuadTree.insert_spec k (positions.getD k default)
          ((quadFold root positions k).max_depth + 1) (quadFold root positions k)
      rw [quadFold_succ]
      refine ⟨⟨ib1.trans hb1, ib2.trans hb2⟩, ?_, ?_, ?_⟩
      · intro i hi
        by_cases hik : i = k
        · subst hik
          rw [icnt i, hge i (le_refl i)]
          by_cases hcp : (quadFold root positions i).contains_point
              (positions.getD i default)
          · rw [QuadTree.insert_snd_true _ _ _ _ hcp]
            rw [if_pos ((QuadTree.contains_congr hb1 hb2 _).mp hcp)]
            simp
          · rw [QuadTree.insert_not_contains _ _ _ _ hcp]
            rw [if_neg (fun hroot =>
              hcp ((QuadTree.contains_congr hb1 hb2 _).mpr hroot))]
            simp
        · rw [icnt i]
          simp only [hik, and_false, if_false]
          exact hlt i (by omega)
      · intro i hi
        rw [icnt i]
        have : ¬ (i = k) := by omega
        simp only [this, and_false, if_false]
        exact hge i (by omega)
      · intro i
        by_cases hik : i = k
        · subst hik
          exact igd i _ (Or.inr rfl) (hgood i)
        · exact igd i _ (Or.inl hik) (hgood i)

/-! ## Claim C3: spatial-index rebuild membership invariant -/

/-- C3 (amended): after a grid rebuild, every input particle index is stored in
exactly one cell — the floor-cell of its position, whose spatial region contains
the position whenever the cell size is positive — for EVERY input list,
including out-of-bounds positions (cell keys are unbounded).  After a quadtree
rebuild, a particle index whose position lies inside the root bounds appears in
exactly one node, and every node storing an index has bounds containing that
index's position; a particle whose position lies OUTSIDE the root bounds is
dropped and appears in no node (see the counterexample). -/
theorem C3_rebuild_membership :
    (∀ (g : SpatialGrid) (positions : List Vec2Q) (i : ℕ), i < positions.length →
      (g.update positions).cells_holding i =
        [g.position_to_cell (positions.getD i default)] ∧
      (0 < g.cell_size →
        g.bounds.1.x + ((g.position_to_cell (positions.getD i default)).1 : ℚ) *
            g.cell_size ≤ (positions.getD i default).x ∧
        (positions.getD i default).x < g.bounds.1.x +
          (((g.position_to_cell (positions.getD i default)).1 : ℚ) + 1) * g.cell_size ∧
        g.bounds.1.y + ((g.position_to_cell (positions.getD i default)).2 : ℚ) *
            g.cell_size ≤ (positions.getD i default).y ∧
        (positions.getD i default).y < g.bounds.1.y +
          (((g.position_to_cell (positions.getD i default)).2 : ℚ) + 1) * g.cell_size)) ∧
    (∀ (m : QuadTreeManager) (positions : List Vec2Q) (i : ℕ), i < positions.length →
      (m.quadtree.contains_point (positions.getD i default) →
        (m.update positions).quadtree.countIdx i = 1) ∧
      (¬ m.quadtree.contains_point (positions.getD i default) →
        (m.update positions).quadtree.countIdx i = 0) ∧
      (m.update positions).quadtree.goodFor i (positions.getD i default)) := by
  constructor
  · intro g positions i hi
    have hconv : (g.update positions).grid = (List.range positions.length).foldl
        (fun acc j => gridUpsert acc (g.position_to_cell (positions.getD j default)) j)
        [] := by
      show positions.enum.foldl
        (fun acc ip => gridUpsert acc (g.position_to_cell ip.2) ip.1) [] = _
      rw [enum_eq_range_map, List.foldl_map]
    obtain ⟨_, hc⟩ := grid_fold_spec g positions positions.length
    constructor
    · show cellsHolding (g.update positions).grid i = _
      rw [hconv]
      exact hc i hi
    · intro hcs
      obtain ⟨hx1, hx2⟩ :=
        floor_cell_region (positions.getD i default).x g.bounds.1.x g.cell_size hcs
      obtain ⟨hy1, hy2⟩ :=
        floor_cell_region (positions.getD i default).y g.bounds.1.y g.cell_size hcs
      exact ⟨hx1, hx2, hy1, hy2⟩
  · intro m positions i hi
    have hupd : (m.update positions).quadtree =
        quadFold m.quadtree.clear positions positions.length := by
      show positions.enum.foldl
        (fun t ip => (t.insert (t.max_depth + 1) ip.1 ip.2).1) m.quadtree.clear = _
      rw [enum_eq_range_map, List.foldl_map]
      rfl
    obtain ⟨⟨hb1, hb2⟩, hlt, _, hgood⟩ :=
      quadtree_fold_spec m.quadtree.clear positions
        (fun j => QuadTree.countIdx_clear m.quadtree j)
        (fun j q => QuadTree.goodFor_clear m.quadtree j q) positions.length
    have hcc : m.quadtree.clear.contains_point (positions.getD i default) ↔
        m.quadtree.contains_point (positions.getD i default) :=
      QuadTree.contains_congr (QuadTree.clear_boundsMin m.quadtree)
        (QuadTree.clear_boundsMax m.quadtree) _
    refine ⟨?_, ?_, ?_⟩
    · intro hcp
      rw [hupd, hlt i hi, if_pos (hcc.mpr hcp)]
    · intro hcp
      rw [hupd, hlt i hi, if_neg (fun h => hcp (hcc.mp h))]
    · rw [hupd]
      exact hgood i

/-- C3 counterexample: a quadtree over bounds [(-1,-1),(1,1)] rebuilt from a
single particle at (5,5) — outside the bounds — stores that particle index in NO
node (insert returns false and the manager ignores it), refuting "every particle
index appears in exactly one quadtree node … including particles whose position
lies outside the index bounds". -/
theorem C3_counterexample :
    ((QuadTreeManager.new (⟨-1, -1⟩, ⟨1, 1⟩) 4 8).update
      [⟨5, 5⟩]).quadtree.countIdx 0 ≠ 1 := by
  decide

/-- Witness for C3 at concrete inputs: the grid part at one particle at (5,5)
over a cell-size-10 grid, and the quadtree part at one particle at (0,0) inside
bounds ±1. -/
theorem C3_witness :
    (((SpatialGrid.new 10 (⟨-50, -50⟩, ⟨50, 50⟩)).update [⟨5, 5⟩]).cells_holding 0 =
      [(SpatialGrid.new 10 (⟨-50, -50⟩, ⟨50, 50⟩)).position_to_cell
        (([⟨5, 5⟩] : List Vec2Q).getD 0 default)]) ∧
    (((QuadTreeManager.new (⟨-1, -1⟩, ⟨1, 1⟩) 4 8).update [⟨0, 0⟩]).quadtree.countIdx 0
      = 1) := by
  constructor
  · exact ((C3_rebuild_membership.1 (SpatialGrid.new 10 (⟨-50, -50⟩, ⟨50, 50⟩))
      [⟨5, 5⟩] 0 (by norm_num)).1)
  · exact (C3_rebuild_membership.2 (QuadTreeManager.new (⟨-1, -1⟩, ⟨1, 1⟩) 4 8)
      [⟨0, 0⟩] 0 (by norm_num)).1 (by decide)
